import Mathlib

/-!
Verification development for the ModelMind training backend
(`app/utils/safe_label_encoding.py`, `app/utils/data_validation.py`,
`app/services/data_preprocessing.py`, `app/services/training_service.py`).

Shallow embedding conventions:
* A pandas / numpy cell value is modelled by `Val`: a missing marker
  (NaN / None), an exact rational number, or a string.  Floating point
  numbers are modelled by exact rationals; `np.allclose(x, x.astype(int))`
  is modelled as exact integrality (`q.den = 1`).
* `pd.to_numeric(..., errors="coerce")` is modelled by `toNumericOpt`.
  Strings are modelled as non-numeric and non-datetime: the modelled input
  space contains no numeric strings such as "3" and no parseable date
  strings, so `pd.to_datetime(..., errors="raise")` is modelled as always
  failing and numeric conversion of a string as always failing.
* Python exceptions (`ValueError`, `DataPreprocessingError`) are modelled
  by `Except String`.
* numpy integer division 0/0 (which yields NaN, not an exception) maps to
  rational division by zero, which is 0 in Lean; no claim depends on it.
-/

/-- A cell value of a tabular dataset: missing (NaN/None), numeric, or string. -/
inductive Val where
  | vNull : Val
  | vNum : ℚ → Val
  | vStr : String → Val
deriving DecidableEq, Repr

/-- Model of `pd.isna` for a single value. -/
def Val.isNull : Val → Bool
  | Val.vNull => true
  | _ => false

/-- Model of `pd.to_numeric(value, errors="coerce")` on one value
(strings are modelled as never numeric-parseable). -/
def toNumericOpt : Val → Option ℚ
  | Val.vNum q => some q
  | _ => none

/-- Model of `Series.dropna()`. -/
def dropNull (vs : List Val) : List Val := vs.filter (fun v => !v.isNull)

/-- Total order used to model numpy sorting of homogeneous label arrays. -/
def Val.vle : Val → Val → Bool
  | Val.vNull, _ => true
  | Val.vNum _, Val.vNull => false
  | Val.vNum a, Val.vNum b => decide (a ≤ b)
  | Val.vNum _, Val.vStr _ => true
  | Val.vStr _, Val.vNull => false
  | Val.vStr _, Val.vNum _ => false
  | Val.vStr a, Val.vStr b => decide (a ≤ b)

/-- Insertion into a list sorted by `le`. -/
def insertLe {α : Type} (le : α → α → Bool) (x : α) : List α → List α
  | [] => [x]
  | y :: ys => if le x y then x :: y :: ys else y :: insertLe le x ys

/-- Insertion sort by `le`. -/
def sortWith {α : Type} (le : α → α → Bool) (l : List α) : List α :=
  l.foldr (insertLe le) []

/-- Model of `np.unique` (sorted list of the distinct elements). -/
def sortedUnique (l : List Val) : List Val := sortWith Val.vle l.dedup

/-- First index of a value in a list (model of the position
`sklearn.LabelEncoder` assigns to a class in its sorted class array). -/
def idxOfVal (v : Val) : List Val → ℕ
  | [] => 0
  | x :: xs => if x = v then 0 else idxOfVal v xs + 1

/-- Model of `unique[np.argmax(counts)]` over the sorted distinct values of
`y`: the first element of `cs` whose count in `y` is maximal, starting from
candidate `c0`. -/
def argmaxCount (y : List Val) (c0 : Val) (cs : List Val) : Val :=
  cs.foldl (fun best x => if y.count best < y.count x then x else best) c0

/-- State of a fitted `SafeLabelEncoder`
(`app/utils/safe_label_encoding.py`, class `SafeLabelEncoder`).
`handle_unknown` and `unknown_value` are the constructor arguments
(`unknown_value = None` defaults to `-1` in the constructor and is modelled
by passing `-1`); `classes_` and `mode_class_` are set by `fit`;
`unseen_labels_` is the running list extended by `transform`. -/
structure SafeLabelEncoder where
  handle_unknown : String
  unknown_value : ℤ
  classes_ : List Val
  mode_class_ : Val
  unseen_labels_ : List Val
deriving Repr, DecidableEq

/-- Model of `SafeLabelEncoder.fit`: drop NaN, fail on an empty remainder,
store the sorted class vocabulary and the most frequent class. -/
def SafeLabelEncoder.fit (handle_unknown : String) (unknown_value : ℤ)
    (y : List Val) : Except String SafeLabelEncoder :=
  let y_clean := dropNull y
  match sortedUnique y_clean with
  | [] => Except.error "Cannot fit SafeLabelEncoder with all NaN values"
  | c :: cs =>
      Except.ok
        { handle_unknown := handle_unknown
          unknown_value := unknown_value
          classes_ := c :: cs
          mode_class_ := argmaxCount y_clean c cs
          unseen_labels_ := [] }

/-- One iteration of the element loop in `SafeLabelEncoder.transform`:
returns the encoded value, whether the element counts as unseen
(`unseen_mask[i]`), and the label recorded in `unseen_labels` (only
non-null unseen labels are recorded there). -/
def encodeStep (st : SafeLabelEncoder) (i : ℕ) (v : Val) :
    Except String (ℤ × Bool × Option Val) :=
  if v.isNull then
    if st.handle_unknown = "error" then
      Except.error ("NaN value encountered at index " ++ toString i)
    else Except.ok (st.unknown_value, true, none)
  else if v ∈ st.classes_ then
    Except.ok ((idxOfVal v st.classes_ : ℤ), false, none)
  else if st.handle_unknown = "error" then
    Except.error "Label not seen during training"
  else if st.handle_unknown = "use_mode" then
    Except.ok ((idxOfVal st.mode_class_ st.classes_ : ℤ), true, some v)
  else
    Except.ok (st.unknown_value, true, some v)

/-- The element loop of `SafeLabelEncoder.transform`: encoded values,
count of unseen positions, and the collected non-null unseen labels. -/
def encodeLoop (st : SafeLabelEncoder) (i : ℕ) :
    List Val → Except String (List ℤ × ℕ × List Val)
  | [] => Except.ok ([], 0, [])
  | v :: rest =>
      match encodeStep st i v with
      | Except.error e => Except.error e
      | Except.ok (code, unseen, lbl) =>
          match encodeLoop st (i + 1) rest with
          | Except.error e => Except.error e
          | Except.ok (codes, cnt, lbls) =>
              Except.ok (code :: codes, (if unseen then 1 else 0) + cnt,
                match lbl with
                | some l => l :: lbls
                | none => lbls)

/-- Per-call statistics returned by `SafeLabelEncoder.transform`. -/
structure TransformStats where
  total_samples : ℕ
  unseen_count : ℕ
  unseen_labels : List Val
  unseen_percentage : ℚ
  strategy_used : String
deriving Repr, DecidableEq

/-- Model of `SafeLabelEncoder.transform`: encode every element, extend the
running `unseen_labels_` list with the distinct non-null unseen labels, and
return the per-call statistics. -/
def SafeLabelEncoder.transform (st : SafeLabelEncoder) (y : List Val) :
    Except String (SafeLabelEncoder × List ℤ × TransformStats) :=
  match encodeLoop st 0 y with
  | Except.error e => Except.error e
  | Except.ok (codes, cnt, lbls) =>
      let unique_unseen := sortedUnique lbls
      Except.ok
        ({ st with unseen_labels_ := st.unseen_labels_ ++ unique_unseen },
         codes,
         { total_samples := y.length
           unseen_count := cnt
           unseen_labels := unique_unseen
           unseen_percentage := (cnt : ℚ) / (y.length : ℚ) * 100
           strategy_used := st.handle_unknown })

/-- One element of `SafeLabelEncoder.inverse_transform`: the unknown
sentinel and out-of-range indices decode to placeholder strings, valid
indices decode to the stored class. -/
def decodeOne (st : SafeLabelEncoder) (c : ℤ) : Val :=
  if c = st.unknown_value then
    Val.vStr ("<UNKNOWN_" ++ toString st.unknown_value ++ ">")
  else if c < 0 ∨ (st.classes_.length : ℤ) ≤ c then
    Val.vStr ("<INVALID_" ++ toString c ++ ">")
  else st.classes_.getD c.toNat Val.vNull

/-- Model of `SafeLabelEncoder.inverse_transform`. -/
def SafeLabelEncoder.inverse_transform (st : SafeLabelEncoder)
    (codes : List ℤ) : List Val :=
  codes.map (decodeOne st)

/-- Result of `safe_encode_labels`. -/
structure SafeEncodeResult where
  y_train_encoded : List ℤ
  y_test_encoded : List ℤ
  encoder : SafeLabelEncoder
  train_stats : TransformStats
  test_stats : TransformStats
deriving Repr, DecidableEq

/-- Model of the module-level `safe_encode_labels`: construct an encoder
with the requested strategy (and the default sentinel `-1`), fit-transform
the training labels, then transform the test labels with the same fitted
encoder. -/
def safe_encode_labels (handle_unknown : String) (y_train y_test : List Val) :
    Except String SafeEncodeResult :=
  match SafeLabelEncoder.fit handle_unknown (-1) y_train with
  | Except.error e => Except.error e
  | Except.ok enc =>
      match enc.transform y_train with
      | Except.error e => Except.error e
      | Except.ok (enc1, train_codes, train_stats) =>
          match enc1.transform y_test with
          | Except.error e => Except.error e
          | Except.ok (enc2, test_codes, test_stats) =>
              Except.ok
                { y_train_encoded := train_codes
                  y_test_encoded := test_codes
                  encoder := enc2
                  train_stats := train_stats
                  test_stats := test_stats }

/-- Fit on `yFit`, transform `yIn`, then inverse-transform the codes;
returns the decoded values together with the unseen count of the transform
call.  Composite of the source operations used to state round-trip facts. -/
def encodeThenDecode (handle_unknown : String) (unknown_value : ℤ)
    (yFit yIn : List Val) : Except String (List Val × ℕ) :=
  match SafeLabelEncoder.fit handle_unknown unknown_value yFit with
  | Except.error e => Except.error e
  | Except.ok st =>
      match st.transform yIn with
      | Except.error e => Except.error e
      | Except.ok (st1, codes, stats) =>
          Except.ok (st1.inverse_transform codes, stats.unseen_count)

/-- True exactly on `Except.error`. -/
def isError {α : Type} : Except String α → Bool
  | Except.error _ => true
  | Except.ok _ => false

/-- Health report for a single column
(`app/utils/data_validation.py`, dataclass `ColumnHealth`).
The source field `cardinality_ratio` is rendered here as
`cardinality_rate`. -/
structure ColumnHealth where
  name : String
  original_dtype : String
  inferred_type : String
  null_count : ℕ
  null_percentage : ℚ
  unique_count : ℕ
  cardinality_rate : ℚ
  has_mixed_types : Bool
  sample_values : List Val
  issues : List String
  recommended_action : String
  coerce_to_dtype : Option String
deriving Repr, DecidableEq

/-- Constructor parameters of `DataValidator` with their source defaults.
The source names `max_cardinality_ratio` and `max_null_ratio` are rendered
as `..._rate`. -/
structure ValidatorConfig where
  max_cardinality_rate : ℚ := 95 / 100
  min_valid_rows_rate : ℚ := 1 / 10
  max_null_rate : ℚ := 95 / 100
  min_unique_for_regression : ℕ := 10
deriving Repr, DecidableEq

/-- Model of the pandas dtype of a column as produced by `pd.read_csv`:
any string makes the column `object`; otherwise a column of integers with
no missing values is `int64`, and any float or missing value makes it
`float64` (NaN is a float).  An empty column is modelled as `float64`. -/
def colDtype (vs : List Val) : String :=
  if vs.any (fun v => match v with | Val.vStr _ => true | _ => false) then "object"
  else if vs.all (fun v => match v with | Val.vNum q => decide (q.den = 1) | _ => false) then "int64"
  else "float64"

/-- Null percentage of a column as computed in `DataValidator._analyze_column`
(`(null_count / n_total) * 100 if n_total > 0 else 100`). -/
def nullPctOf (vs : List Val) : ℚ :=
  if 0 < vs.length then
    ((vs.filter Val.isNull).length : ℚ) / (vs.length : ℚ) * 100
  else 100

/-- Model of `DataValidator._infer_column_type` on the non-null values of a
column: returns `(inferred_type, has_mixed_types, coerce_to_dtype)`.
Datetime parsing (`pd.to_datetime(..., errors="raise")`) is modelled as
always failing, consistent with the modelled value space. -/
def inferColumnType (series : List Val) : String × Bool × Option String :=
  if series.length = 0 then ("invalid", false, none)
  else
    let nonNullNumeric := series.filterMap toNumericOpt
    let conversion_rate : ℚ := (nonNullNumeric.length : ℚ) / (series.length : ℚ)
    if 8 / 10 < conversion_rate then
      let has_mixed := conversion_rate < 1
      if nonNullNumeric.all (fun q => decide (q.den = 1)) then
        ("numeric", has_mixed, some "int64")
      else ("numeric", has_mixed, some "float64")
    else
      let unique_rate : ℚ := (series.dedup.length : ℚ) / (series.length : ℚ)
      if unique_rate < 1 / 2 ∨ series.dedup.length < 50 then
        ("categorical", false, some "object")
      else ("text", false, some "object")

/-- Model of `DataValidator._analyze_column`. -/
def analyzeColumn (cfg : ValidatorConfig) (vs : List Val) (col_name : String) :
    ColumnHealth :=
  let null_count := (vs.filter Val.isNull).length
  let null_pct := nullPctOf vs
  let non_null := dropNull vs
  let unique_count := if 0 < non_null.length then non_null.dedup.length else 0
  let card_rate : ℚ :=
    if 0 < non_null.length then (unique_count : ℚ) / (non_null.length : ℚ) else 0
  let sample_values := non_null.take 5
  if cfg.max_null_rate * 100 ≤ null_pct then
    { name := col_name
      original_dtype := colDtype vs
      inferred_type := "invalid"
      null_count := null_count
      null_percentage := null_pct
      unique_count := unique_count
      cardinality_rate := card_rate
      has_mixed_types := false
      sample_values := sample_values
      issues := ["high null percentage"]
      recommended_action := "drop"
      coerce_to_dtype := none }
  else
    let itc := inferColumnType non_null
    let inferred_type := itc.1
    let has_mixed := itc.2.1
    let coerce_to := itc.2.2
    let issues :=
      (if unique_count ≤ 1 ∧ 0 < non_null.length then ["zero variance"] else []) ++
      (if inferred_type = "categorical" ∧ cfg.max_cardinality_rate < card_rate then
        ["very high cardinality"] else []) ++
      (if has_mixed then ["contains mixed types"] else [])
    let recommended_action :=
      if unique_count ≤ 1 then "drop"
      else match coerce_to with
        | some d => if d ≠ colDtype vs then "coerce" else "keep"
        | none => "keep"
    { name := col_name
      original_dtype := colDtype vs
      inferred_type := inferred_type
      null_count := null_count
      null_percentage := null_pct
      unique_count := unique_count
      cardinality_rate := card_rate
      has_mixed_types := has_mixed
      sample_values := sample_values
      issues := issues
      recommended_action := recommended_action
      coerce_to_dtype := coerce_to }

/-- String rendering used by the model of `Series.astype(str)` (number
rendering is abstract; no claim depends on it; NaN renders as "nan" as in
pandas). -/
def pyStr : Val → String
  | Val.vNull => "nan"
  | Val.vNum q => toString q
  | Val.vStr s => s

/-- Model of `DataValidator._coerce_column`: numeric targets go through
`pd.to_numeric(errors="coerce")`, datetime targets through
`pd.to_datetime(errors="coerce")` (always NaT in the modelled value space),
object targets through `astype(str)`. -/
def coerceColumn (vs : List Val) (target_dtype : String) : List Val :=
  if target_dtype = "int64" ∨ target_dtype = "float64" then
    vs.map (fun v => match toNumericOpt v with
      | some q => Val.vNum q
      | none => Val.vNull)
  else if target_dtype = "datetime64[ns]" then
    vs.map (fun _ => Val.vNull)
  else if target_dtype = "object" then
    vs.map (fun v => Val.vStr (pyStr v))
  else vs

/-- Model of `DataValidator._clean_target_column`: for regression coerce a
non-numeric target to numeric; for classification stringify a numeric
target with fewer than 20 distinct non-null values. -/
def cleanTargetColumn (target_vals : List Val) (th : ColumnHealth)
    (problem_type : String) : List Val × ColumnHealth :=
  if problem_type = "regression" then
    if th.inferred_type ≠ "numeric" then
      (target_vals.map (fun v => match toNumericOpt v with
        | some q => Val.vNum q
        | none => Val.vNull),
       { th with coerce_to_dtype := some "float64", inferred_type := "numeric" })
    else (target_vals, th)
  else if problem_type = "classification" then
    if th.inferred_type = "numeric" then
      if (dropNull target_vals).dedup.length < 20 then
        (target_vals.map (fun v => Val.vStr (pyStr v)),
         { th with inferred_type := "categorical" })
      else (target_vals, th)
    else (target_vals, th)
  else (target_vals, th)

/-- Model of `DataValidator._infer_problem_type` (the validator's copy of
the Problem-Type Classifier; note its unique-count threshold is
`min_unique_for_regression`, default 10). -/
def DataValidator.infer_problem_type (cfg : ValidatorConfig)
    (series : List Val) (health : ColumnHealth) : String :=
  let non_null := dropNull series
  if non_null.length = 0 then "classification"
  else
    let unique_count := health.unique_count
    let n_samples := non_null.length
    if health.inferred_type = "categorical" ∨ health.inferred_type = "text" then
      "classification"
    else if health.inferred_type = "numeric" then
      let numeric_vals := non_null.filterMap toNumericOpt
      let is_all_integers := numeric_vals.all (fun q => decide (q.den = 1))
      if unique_count < cfg.min_unique_for_regression ∧ is_all_integers then
        "classification"
      else if (unique_count : ℚ) / (n_samples : ℚ) < 5 / 100 then
        "classification"
      else "regression"
    else "classification"

/-- The validator's Problem-Type Classifier applied the way
`validate_and_clean` applies it: to a raw series together with that same
series' column health. -/
def validatorClassify (cfg : ValidatorConfig) (series : List Val) : String :=
  DataValidator.infer_problem_type cfg series (analyzeColumn cfg series "target")

/-- A pandas DataFrame modelled as an ordered list of named columns.
Well-formed tables have columns of equal length; operations are stated so
that the claims do not depend on ragged inputs. -/
structure Table where
  cols : List (String × List Val)
deriving Repr, DecidableEq

/-- Column names, in order. -/
def Table.names (t : Table) : List String := t.cols.map Prod.fst

/-- Values of the named column (first match; empty when absent). -/
def Table.getCol (t : Table) (n : String) : List Val :=
  match t.cols.find? (fun c => c.1 = n) with
  | some c => c.2
  | none => []

/-- Row count (length of the first column, as for a well-formed frame). -/
def Table.nRows (t : Table) : ℕ :=
  match t.cols with
  | [] => 0
  | c :: _ => c.2.length

/-- Model of `df.empty` (any axis of length 0). -/
def Table.isEmpty (t : Table) : Bool :=
  match t.cols with
  | [] => true
  | c :: _ => c.2.length = 0

/-- Keep the entries of `vs` whose position is marked `true` in `mask`
(used to model boolean-mask row filtering). -/
def applyMask (mask : List Bool) (vs : List Val) : List Val :=
  ((vs.zip mask).filter (fun p => p.2)).map Prod.fst

/-- Result of the cleaning phase of `DataValidator.validate_and_clean`
(steps 3 to 5 of the source). -/
structure CleanResult where
  table : Table
  dropped_columns : List String
  coerced_columns : List String
  target_health : ColumnHealth
deriving Repr, DecidableEq

/-- Steps 3 to 5 of `DataValidator.validate_and_clean` for a requested
target column `t`: drop the `drop`-recommended non-target columns, coerce
the `coerce`-recommended non-target columns, clean the target column
according to the problem type, then remove all rows whose target value is
null. -/
def cleanPhase (cfg : ValidatorConfig) (df : Table) (t : String)
    (problem_type : String) : CleanResult :=
  let keptCols := df.cols.filterMap (fun c =>
    if c.1 = t then some c
    else
      let h := analyzeColumn cfg c.2 c.1
      if h.recommended_action = "drop" then none
      else if h.recommended_action = "coerce" then
        some (c.1, coerceColumn c.2 (h.coerce_to_dtype.getD ""))
      else some c)
  let dropped := df.cols.filterMap (fun c =>
    if c.1 ≠ t ∧ (analyzeColumn cfg c.2 c.1).recommended_action = "drop" then
      some c.1
    else none)
  let coerced := df.cols.filterMap (fun c =>
    if c.1 ≠ t ∧ (analyzeColumn cfg c.2 c.1).recommended_action = "coerce" then
      some c.1
    else none)
  let t_health := analyzeColumn cfg (df.getCol t) t
  let cleanedTarget :=
    cleanTargetColumn (Table.getCol { cols := keptCols } t) t_health problem_type
  let cols2 := keptCols.map (fun c =>
    if c.1 = t then (c.1, cleanedTarget.1) else c)
  let keepMask := cleanedTarget.1.map (fun v => !v.isNull)
  let cols3 :=
    if cleanedTarget.1.any Val.isNull then
      cols2.map (fun c => (c.1, applyMask keepMask c.2))
    else cols2
  { table := { cols := cols3 }
    dropped_columns := dropped
    coerced_columns := coerced
    target_health := cleanedTarget.2 }

/-- Step 3 of `validate_and_clean` when no target column is requested:
every column is cleaned, no target handling and no row removal happen. -/
def cleanPhaseNoTarget (cfg : ValidatorConfig) (df : Table) : Table :=
  { cols := df.cols.filterMap (fun c =>
      let h := analyzeColumn cfg c.2 c.1
      if h.recommended_action = "drop" then none
      else if h.recommended_action = "coerce" then
        some (c.1, coerceColumn c.2 (h.coerce_to_dtype.getD ""))
      else some c) }

/-- The recommended problem type `validate_and_clean` computes for target
`t` (step 2 of the source). -/
def validatorProblemTypeFor (cfg : ValidatorConfig) (df : Table) (t : String) :
    String :=
  DataValidator.infer_problem_type cfg (df.getCol t)
    (analyzeColumn cfg (df.getCol t) t)

/-- The cleaned table `validate_and_clean` produces for target `t`. -/
def cleanedTableFor (cfg : ValidatorConfig) (df : Table) (t : String) : Table :=
  (cleanPhase cfg df t (validatorProblemTypeFor cfg df t)).table

/-- Complete dataset health report
(`app/utils/data_validation.py`, dataclass `DatasetHealthReport`). -/
structure DatasetHealthReport where
  total_rows : ℕ
  total_columns : ℕ
  valid_columns : List String
  dropped_columns : List String
  coerced_columns : List String
  column_reports : List (String × ColumnHealth)
  target_column_health : Option ColumnHealth
  overall_issues : List String
  is_valid : Bool
  recommended_problem_type : Option String
deriving Repr, DecidableEq

/-- Dataset-level warnings of step 7 of `validate_and_clean`. -/
def overallIssuesFor (df : Table) (dropped : List String) (cleaned : Table) :
    List String :=
  (if (df.cols.length : ℚ) * (1 / 2) < (dropped.length : ℚ) then
    ["more than half of the columns were dropped"] else []) ++
  (if (cleaned.nRows : ℚ) < (df.nRows : ℚ) * (1 / 2) then
    ["more than half of the rows were removed"] else [])

/-- Model of `DataValidator.validate_and_clean`.  The `Option Table`
argument models a `None` dataframe.  Raise conditions, in source order:
empty or absent input; requested target column missing; zero feature
columns after cleaning; fewer than 10 rows after cleaning (the row-count
check only runs when a target was requested). -/
def validate_and_clean (cfg : ValidatorConfig) (df? : Option Table)
    (target_col : Option String) :
    Except String (Table × DatasetHealthReport) :=
  match df? with
  | none => Except.error "Dataset is empty or None"
  | some df =>
    if df.isEmpty then Except.error "Dataset is empty or None"
    else
      match target_col with
      | some t =>
        if t ∈ df.names then
          let pt := validatorProblemTypeFor cfg df t
          let cr := cleanPhase cfg df t pt
          let valid_columns := cr.table.names.filter (fun c => c ≠ t)
          if valid_columns = [] then
            Except.error "No valid feature columns remain after cleaning"
          else if cr.table.nRows < 10 then
            Except.error "Too few valid rows remain - insufficient for training"
          else
            Except.ok (cr.table,
              { total_rows := cr.table.nRows
                total_columns := cr.table.cols.length
                valid_columns := valid_columns
                dropped_columns := cr.dropped_columns
                coerced_columns := cr.coerced_columns
                column_reports := df.cols.map (fun c =>
                  if c.1 = t then (c.1, cr.target_health)
                  else (c.1, analyzeColumn cfg c.2 c.1))
                target_column_health := some cr.target_health
                overall_issues := overallIssuesFor df cr.dropped_columns cr.table
                is_valid := true
                recommended_problem_type := some pt })
        else Except.error "Target column not found in dataset"
      | none =>
        let cleaned := cleanPhaseNoTarget cfg df
        if cleaned.names = [] then
          Except.error "No valid feature columns remain after cleaning"
        else
          Except.ok (cleaned,
            { total_rows := cleaned.nRows
              total_columns := cleaned.cols.length
              valid_columns := cleaned.names
              dropped_columns := df.cols.filterMap (fun c =>
                if (analyzeColumn cfg c.2 c.1).recommended_action = "drop" then
                  some c.1
                else none)
              coerced_columns := df.cols.filterMap (fun c =>
                if (analyzeColumn cfg c.2 c.1).recommended_action = "coerce" then
                  some c.1
                else none)
              column_reports := df.cols.map (fun c =>
                (c.1, analyzeColumn cfg c.2 c.1))
              target_column_health := none
              overall_issues := overallIssuesFor df
                (df.cols.filterMap (fun c =>
                  if (analyzeColumn cfg c.2 c.1).recommended_action = "drop" then
                    some c.1
                  else none)) cleaned
              is_valid := true
              recommended_problem_type := none })

/-- Fraction of the non-null entries of a column that convert to numeric
(`conversion_rate` computed on `col_data = X[col].dropna()` in
`DataPreprocessing.build_pipeline`). -/
def numericConvRate (vs : List Val) : ℚ :=
  (((dropNull vs).filterMap toNumericOpt).length : ℚ) / ((dropNull vs).length : ℚ)

/-- A column with no non-null entries (skipped and recorded as removed in
`build_pipeline`). -/
def isAllNullCol (vs : List Val) : Bool := (dropNull vs).length = 0

/-- A feature routed to the numeric group in `build_pipeline`
(more than 80 percent of its non-null values convert to numeric). -/
def isNumericFeature (vs : List Val) : Bool :=
  !isAllNullCol vs ∧ 8 / 10 < numericConvRate vs

/-- A feature routed to the categorical group in `build_pipeline`. -/
def isCategoricalFeature (vs : List Val) : Bool :=
  !isAllNullCol vs ∧ ¬(8 / 10 < numericConvRate vs)

/-- Names of the numeric features, in column order.  The source loop that
appends into `numeric_features` is rendered as an order-preserving filter. -/
def classifyNumericFeatures (X : Table) : List String :=
  (X.cols.filter (fun c => isNumericFeature c.2)).map Prod.fst

/-- Names of the categorical features, in column order. -/
def classifyCategoricalFeatures (X : Table) : List String :=
  (X.cols.filter (fun c => isCategoricalFeature c.2)).map Prod.fst

/-- Names of the all-null columns (skipped as removed), in column order. -/
def allNullFeatures (X : Table) : List String :=
  (X.cols.filter (fun c => isAllNullCol c.2)).map Prod.fst

/-- `X[col].nunique()`: distinct non-null values of a column. -/
def catNUnique (vs : List Val) : ℕ := (dropNull vs).dedup.length

/-- `len(X[col].dropna())`: non-null entry count of a column. -/
def catNSamples (vs : List Val) : ℕ := (dropNull vs).length

/-- The identifier test of `build_pipeline`:
`n_unique > 1000 or n_unique == n_samples`. -/
def isIdentifierCat (vs : List Val) : Bool :=
  1000 < catNUnique vs ∨ catNUnique vs = catNSamples vs

/-- The high-cardinality test of `build_pipeline`:
`n_unique > 50 or (n_unique / n_samples) > 0.5`. -/
def isHighCardCat (vs : List Val) : Bool :=
  50 < catNUnique vs ∨ 1 / 2 < (catNUnique vs : ℚ) / (catNSamples vs : ℚ)

/-- Categorical columns dropped as apparent identifiers, in column order.
The categorical routing loop of `build_pipeline` is rendered as three
order-preserving filters. -/
def identifierCats (X : Table) : List String :=
  (X.cols.filter (fun c => isCategoricalFeature c.2 ∧ isIdentifierCat c.2)).map Prod.fst

/-- Categorical columns routed to the high-cardinality group, in order. -/
def highCardCats (X : Table) : List String :=
  (X.cols.filter (fun c =>
    isCategoricalFeature c.2 ∧ ¬isIdentifierCat c.2 ∧ isHighCardCat c.2)).map Prod.fst

/-- Categorical columns routed to the low-cardinality group, in order. -/
def lowCardCats (X : Table) : List String :=
  (X.cols.filter (fun c =>
    isCategoricalFeature c.2 ∧ ¬isIdentifierCat c.2 ∧ ¬isHighCardCat c.2)).map Prod.fst

/-- Sample variance with one delta degree of freedom (pandas `Series.var()`),
defined for lists of length at least 2; shorter lists never reach it. -/
def sampleVarOf (xs : List ℚ) : ℚ :=
  let m := xs.sum / (xs.length : ℚ)
  ((xs.map (fun x => (x - m) ^ 2)).sum) / ((xs.length : ℚ) - 1)

/-- Numeric columns whose pandas sample variance is at most the threshold
(`numeric_variances <= variance_threshold`; a NaN variance from fewer than
2 numeric values compares false, hence the length guard). -/
def lowVarianceCols (X : Table) (nums : List String) (t : ℚ) : List String :=
  nums.filter (fun n =>
    let xs := (X.getCol n).filterMap toNumericOpt
    2 ≤ xs.length ∧ sampleVarOf xs ≤ t)

/-- Column routing decided by `DataPreprocessing.build_pipeline`. -/
structure PipelinePlan where
  numeric_features : List String
  low_cardinality_cats : List String
  high_cardinality_cats : List String
  removed_features : List String
  use_target_encoder : Bool
deriving Repr, DecidableEq

/-- Model of `DataPreprocessing.build_pipeline`: classify features,
optionally drop low-variance numeric columns, split categoricals by
cardinality, drop apparent identifiers, and fail when no transformer group
remains. -/
def build_pipeline (X : Table) (use_target_encoder : Bool)
    (variance_threshold : ℚ) : Except String PipelinePlan :=
  let nums := classifyNumericFeatures X
  let lowVar :=
    if 0 < variance_threshold ∧ nums ≠ [] then
      lowVarianceCols X nums variance_threshold
    else []
  let nums2 := nums.filter (fun n => n ∉ lowVar)
  let low := lowCardCats X
  let high := highCardCats X
  let removed := allNullFeatures X ++ lowVar ++ identifierCats X
  if nums2 = [] ∧ low = [] ∧ high = [] then
    Except.error "No valid features found for preprocessing"
  else
    Except.ok
      { numeric_features := nums2
        low_cardinality_cats := low
        high_cardinality_cats := high
        removed_features := removed
        use_target_encoder := use_target_encoder }

/-- Median of a list of rationals (`np.median` / `SimpleImputer(strategy
"median")` fitted statistic). -/
def medianOf (xs : List ℚ) : ℚ :=
  let s := sortWith (fun a b => decide (a ≤ b)) xs
  if s.length = 0 then 0
  else if s.length % 2 = 1 then s.getD (s.length / 2) 0
  else (s.getD (s.length / 2 - 1) 0 + s.getD (s.length / 2) 0) / 2

/-- Fitted state of the numeric sub-pipeline for one column: the imputer
median and the scaler mean and (population) variance.  `StandardScaler`
stores `mean_` and `var_`; its output `(x - mean)/sqrt(var)` is represented
downstream by the pair of the centred value and the variance, since square
roots leave ℚ. -/
structure NumericColState where
  median : ℚ
  mean : ℚ
  variance : ℚ
deriving Repr, DecidableEq

/-- Fit the numeric sub-pipeline (median imputation then standard scaling)
on one training column. -/
def fitNumericCol (vs : List Val) : NumericColState :=
  let xs := vs.filterMap toNumericOpt
  let med := medianOf xs
  let imputed := vs.map (fun v => (toNumericOpt v).getD med)
  let mean := imputed.sum / (imputed.length : ℚ)
  let variance := ((imputed.map (fun x => (x - mean) ^ 2)).sum) / (imputed.length : ℚ)
  { median := med, mean := mean, variance := variance }

/-- Impute a categorical value with the constant `"missing"`
(`SimpleImputer(strategy="constant", fill_value="missing")`). -/
def imputeCat (v : Val) : Val := if v.isNull then Val.vStr "missing" else v

/-- Fit the one-hot encoder on one training column: the sorted distinct
imputed values (the `max_categories` frequency cap of the source is not
modelled; no claim depends on it). -/
def fitCatCol (vs : List Val) : List Val :=
  sortedUnique (vs.map imputeCat)

/-- Fitted state of a high-cardinality column: either one-hot categories or
the target-encoder sufficient statistics (global target mean and, per
imputed category, the training target values; the smoothing of
`TargetEncoder(smooth="auto")` is abstracted to these statistics). -/
inductive HighCatState where
  | oneHot (categories : List Val) : HighCatState
  | targetEnc (globalMean : ℚ) (stats : List (Val × List ℚ)) : HighCatState
deriving Repr, DecidableEq

/-- Fit the high-cardinality sub-pipeline on one training column. -/
def fitHighCat (use_target_encoder : Bool) (vs : List Val) (y : List Val) :
    HighCatState :=
  if use_target_encoder then
    let yq := y.map (fun v => (toNumericOpt v).getD 0)
    let imputed := vs.map imputeCat
    HighCatState.targetEnc (yq.sum / (yq.length : ℚ))
      ((sortedUnique imputed).map (fun c =>
        (c, ((imputed.zip yq).filter (fun p => p.1 = c)).map Prod.snd)))
  else HighCatState.oneHot (fitCatCol vs)

/-- The fitted preprocessing pipeline: the routing plan plus the fitted
per-column states, every one computed from the training table (and, for the
target encoder, the training target) alone. -/
structure FittedPipeline where
  plan : PipelinePlan
  numeric_stats : List (String × NumericColState)
  low_cat_categories : List (String × List Val)
  high_cat_state : List (String × HighCatState)
deriving Repr, DecidableEq

/-- Model of `preprocessor.fit_transform(X_train, y_train)`'s fitting
effect: fit every routed column group on the training data. -/
def fitPipeline (plan : PipelinePlan) (Xtr : Table) (ytr : List Val) :
    FittedPipeline :=
  { plan := plan
    numeric_stats := plan.numeric_features.map (fun n =>
      (n, fitNumericCol (Xtr.getCol n)))
    low_cat_categories := plan.low_cardinality_cats.map (fun n =>
      (n, fitCatCol (Xtr.getCol n)))
    high_cat_state := plan.high_cardinality_cats.map (fun n =>
      (n, fitHighCat plan.use_target_encoder (Xtr.getCol n) ytr)) }

/-- A transformed cell: a standardized numeric value (represented as the
centred value paired with the scaler variance), a one-hot indicator row
(unknown categories map to all zeros, `handle_unknown="ignore"`), or a
target-encoded value. -/
inductive TransVal where
  | scaled (centred : ℚ) (variance : ℚ) : TransVal
  | indicator (bits : List ℚ) : TransVal
  | encoded (q : ℚ) : TransVal
deriving Repr, DecidableEq

/-- Transform one value through the fitted numeric sub-pipeline. -/
def transformNumeric (s : NumericColState) (v : Val) : TransVal :=
  TransVal.scaled ((toNumericOpt v).getD s.median - s.mean) s.variance

/-- Transform one value through the fitted one-hot sub-pipeline. -/
def transformLowCat (categories : List Val) (v : Val) : TransVal :=
  TransVal.indicator (categories.map (fun c => if c = imputeCat v then (1 : ℚ) else 0))

/-- Transform one value through the fitted high-cardinality sub-pipeline
(unseen categories take the global target mean under target encoding). -/
def transformHighCat : HighCatState → Val → TransVal
  | HighCatState.oneHot categories, v => transformLowCat categories v
  | HighCatState.targetEnc g stats, v =>
      match stats.find? (fun p => p.1 = imputeCat v) with
      | some p => TransVal.encoded (p.2.sum / (p.2.length : ℚ))
      | none => TransVal.encoded g

/-- Apply the fitted pipeline to a table row by row; a column absent from
the table reads as entirely missing. -/
def transformTable (f : FittedPipeline) (X : Table) : List (List TransVal) :=
  (List.range X.nRows).map (fun i =>
    f.numeric_stats.map (fun p =>
      transformNumeric p.2 ((X.getCol p.1).getD i Val.vNull)) ++
    f.low_cat_categories.map (fun p =>
      transformLowCat p.2 ((X.getCol p.1).getD i Val.vNull)) ++
    f.high_cat_state.map (fun p =>
      transformHighCat p.2 ((X.getCol p.1).getD i Val.vNull)))

/-- Steps 5 and 6 of `DataPreprocessing.preprocess_data`: build the plan
from the training partition, fit the pipeline on the training partition,
then transform the training and the test partitions with the fitted state. -/
def pipelineFitPhase (use_target_encoder : Bool) (variance_threshold : ℚ)
    (Xtr Xte : Table) (ytr : List Val) :
    Except String (FittedPipeline × List (List TransVal) × List (List TransVal)) :=
  match build_pipeline Xtr use_target_encoder variance_threshold with
  | Except.error e => Except.error e
  | Except.ok plan =>
      let fitted := fitPipeline plan Xtr ytr
      Except.ok (fitted, transformTable fitted Xtr, transformTable fitted Xte)

/-- The fitted-state component of a `pipelineFitPhase` outcome. -/
def fittedOf (r : Except String (FittedPipeline × List (List TransVal) × List (List TransVal))) :
    Option FittedPipeline :=
  match r with
  | Except.ok (f, _, _) => some f
  | Except.error _ => none

/-- Model of `DataPreprocessing._detect_problem_type` (the preprocessing
service's copy of the Problem-Type Classifier). -/
def DataPreprocessing.detect_problem_type (y : List Val) : String :=
  let y_clean := dropNull y
  if y_clean.length = 0 then "classification"
  else
    let y_numeric := y_clean.filterMap toNumericOpt
    if (y_numeric.length : ℚ) / (y_clean.length : ℚ) < 8 / 10 then "classification"
    else
      let n_unique := y_numeric.dedup.length
      let is_integer := y_numeric.all (fun q => decide (q.den = 1))
      if is_integer ∧ n_unique < 20 then "classification"
      else if (n_unique : ℚ) / (y_clean.length : ℚ) < 5 / 100 then "classification"
      else "regression"

/-- The test-size adjustment of `preprocess_data` step 4:
`if len(X) * test_size < 5: test_size = max(5 / len(X), 0.1)`. -/
def adjustTestSize (n : ℕ) (test_size : ℚ) : ℚ :=
  if (n : ℚ) * test_size < 5 then max (5 / (n : ℚ)) (1 / 10) else test_size

/-- Test-partition size produced by `sklearn.train_test_split` for a float
`test_size`: `ceil(test_size * n_samples)`. -/
def nTestSamples (n : ℕ) (test_size : ℚ) : ℕ :=
  (Int.ceil ((test_size) * (n : ℚ))).toNat

/-- Model of `ModelTrainer._infer_problem_type` (the trainer's copy of the
Problem-Type Classifier).  The numpy `object` dtype test is modelled as the
presence of a string (missing values model floating NaN). -/
def ModelTrainer.infer_problem_type (y : List Val) : String :=
  let n_unique := (dropNull y).dedup.length
  let n_samples := y.length
  let has_floats := ¬((y.filterMap toNumericOpt).all (fun q => decide (q.den = 1)))
  if y.any (fun v => match v with | Val.vStr _ => true | _ => false) then
    "classification"
  else if n_unique < 20 ∧ (n_unique : ℚ) < 5 / 100 * (n_samples : ℚ) ∧ ¬has_floats then
    "classification"
  else "regression"

/-- Count of index-aligned pairs of `yt` and `yp` satisfying `p`. -/
def countPairs (yt yp : List ℤ) (p : ℤ → ℤ → Bool) : ℕ :=
  ((yt.zip yp).filter (fun q => p q.1 q.2)).length

/-- Model of `sklearn.accuracy_score`: fraction of aligned equal pairs. -/
def accuracyScore (yt yp : List ℤ) : ℚ :=
  (countPairs yt yp (fun a b => a = b) : ℚ) / (yt.length : ℚ)

/-- True positives for class `c`. -/
def tpOf (c : ℤ) (yt yp : List ℤ) : ℕ :=
  countPairs yt yp (fun a b => a = c ∧ b = c)

/-- False positives for class `c`. -/
def fpOf (c : ℤ) (yt yp : List ℤ) : ℕ :=
  countPairs yt yp (fun a b => a ≠ c ∧ b = c)

/-- False negatives for class `c`. -/
def fnOf (c : ℤ) (yt yp : List ℤ) : ℕ :=
  countPairs yt yp (fun a b => a = c ∧ b ≠ c)

/-- Per-class precision with `zero_division=0`. -/
def precOf (c : ℤ) (yt yp : List ℤ) : ℚ :=
  if tpOf c yt yp + fpOf c yt yp = 0 then 0
  else (tpOf c yt yp : ℚ) / ((tpOf c yt yp + fpOf c yt yp : ℕ) : ℚ)

/-- Per-class recall with `zero_division=0`. -/
def recOf (c : ℤ) (yt yp : List ℤ) : ℚ :=
  if tpOf c yt yp + fnOf c yt yp = 0 then 0
  else (tpOf c yt yp : ℚ) / ((tpOf c yt yp + fnOf c yt yp : ℕ) : ℚ)

/-- Per-class F1 with `zero_division=0`. -/
def f1Of (c : ℤ) (yt yp : List ℤ) : ℚ :=
  if 2 * tpOf c yt yp + fpOf c yt yp + fnOf c yt yp = 0 then 0
  else (2 * tpOf c yt yp : ℚ) / ((2 * tpOf c yt yp + fpOf c yt yp + fnOf c yt yp : ℕ) : ℚ)

/-- The labels sklearn averages over when `labels=None`: the sorted
distinct values present in either vector. -/
def presentLabels (yt yp : List ℤ) : List ℤ :=
  sortWith (fun a b => decide (a ≤ b)) (yt ++ yp).dedup

/-- Support-weighted average of a per-class metric, the sklearn
`average="weighted"` policy (supports are counts in `yt`, whose total is
`yt.length`). -/
def weightedAvg (f : ℤ → List ℤ → List ℤ → ℚ) (yt yp : List ℤ) : ℚ :=
  ((presentLabels yt yp).map (fun c => (yt.count c : ℚ) * f c yt yp)).sum /
    (yt.length : ℚ)

/-- The classification metric record returned by
`ModelTrainer._classification_metrics`. -/
structure ClsMetrics where
  accuracy : ℚ
  precision : ℚ
  «recall» : ℚ
  f1_score : ℚ
deriving Repr, DecidableEq

/-- The condition under which the sklearn metric calls with
`average="binary"` and the default `pos_label=1` raise a `ValueError`
(given a `y_true` with two distinct classes): the labels present in either
vector number more than two (the target is multiclass), or the positive
label 1 is not among the present labels.  On this condition the source's
`except` branch returns the accuracy value for precision, recall and F1. -/
def binaryAverageRaises (yt yp : List ℤ) : Bool :=
  2 < (presentLabels yt yp).length ∨ (1 : ℤ) ∉ presentLabels yt yp

/-- Model of `ModelTrainer._classification_metrics`: accuracy always; one
distinct evaluation class short-circuits precision, recall and F1 to 1;
two distinct classes call sklearn with `binary` averaging (positive label
1), which either returns the binary-averaged values or raises — in which
case the `except` fallback returns the accuracy value for each of
precision, recall and F1; otherwise `weighted` averaging (which does not
raise on integer label vectors with `zero_division=0`). -/
def ModelTrainer.classification_metrics (yt yp : List ℤ) : ClsMetrics :=
  let n_classes := yt.dedup.length
  let accuracy := accuracyScore yt yp
  if n_classes = 1 then
    { accuracy := accuracy, precision := 1, «recall» := 1, f1_score := 1 }
  else if n_classes = 2 then
    if binaryAverageRaises yt yp then
      { accuracy := accuracy, precision := accuracy, «recall» := accuracy,
        f1_score := accuracy }
    else
      { accuracy := accuracy
        precision := precOf 1 yt yp
        «recall» := recOf 1 yt yp
        f1_score := f1Of 1 yt yp }
  else
    { accuracy := accuracy
      precision := weightedAvg precOf yt yp
      «recall» := weightedAvg recOf yt yp
      f1_score := weightedAvg f1Of yt yp }

/-- The encoded-labels component of a `SafeLabelEncoder.transform` call. -/
def transformCodes (st : SafeLabelEncoder) (y : List Val) :
    Except String (List ℤ) :=
  match st.transform y with
  | Except.error e => Except.error e
  | Except.ok (_, codes, _) => Except.ok codes

theorem mem_insertLe {α : Type} (le : α → α → Bool) (x a : α) (l : List α) :
    a ∈ insertLe le x l ↔ a = x ∨ a ∈ l := by
  induction l with
  | nil => simp [insertLe]
  | cons y ys ih =>
      simp only [insertLe]
      split
      · simp [List.mem_cons]
      · simp only [List.mem_cons, ih]
        tauto

theorem mem_sortWith {α : Type} (le : α → α → Bool) (a : α) (l : List α) :
    a ∈ sortWith le l ↔ a ∈ l := by
  induction l with
  | nil => simp [sortWith]
  | cons y ys ih =>
      show a ∈ insertLe le y (sortWith le ys) ↔ _
      rw [mem_insertLe]
      simp [List.mem_cons, ih]

theorem mem_sortedUnique (a : Val) (l : List Val) :
    a ∈ sortedUnique l ↔ a ∈ l := by
  rw [sortedUnique, mem_sortWith, List.mem_dedup]

theorem idxOfVal_lt_length {v : Val} {l : List Val} (h : v ∈ l) :
    idxOfVal v l < l.length := by
  induction l with
  | nil => simp at h
  | cons x xs ih =>
      simp only [idxOfVal]
      split
      · simp
      · rename_i hx
        have hv : v ∈ xs := by
          rcases List.mem_cons.mp h with h1 | h1
        
          · exact absurd h1.symm hx
          · exact h1
        simpa using Nat.succ_lt_succ (ih hv)

theorem getD_idxOfVal {v : Val} {l : List Val} (h : v ∈ l) (d : Val) :
    l.getD (idxOfVal v l) d = v := by
  induction l with
  | nil => simp at h
  | cons x xs ih =>
      simp only [idxOfVal]
      split
      · rename_i hx
        simpa [List.getD] using hx
      · rename_i hx
        have hv : v ∈ xs := by
          rcases List.mem_cons.mp h with h1 | h1
        
          · exact absurd h1.symm hx
          · exact h1
        simpa [List.getD] using ih hv

theorem getD_mem {l : List Val} {n : ℕ} (h : n < l.length) (d : Val) :
    l.getD n d ∈ l := by
  induction l generalizing n with
  | nil => simp at h
  | cons x xs ih =>
      cases n with
      | zero => simp [List.getD]
      | succ m =>
          have : m < xs.length := by simpa using h
          simpa [List.getD] using Or.inr (ih this)

theorem argmaxCount_mem (y : List Val) (c0 : Val) (cs : List Val) :
    argmaxCount y c0 cs = c0 ∨ argmaxCount y c0 cs ∈ cs := by
  induction cs generalizing c0 with
  | nil => left; rfl
  | cons x xs ih =>
      have step : argmaxCount y c0 (x :: xs) =
          argmaxCount y (if y.count c0 < y.count x then x else c0) xs := rfl
      rw [step]
      rcases ih (if y.count c0 < y.count x then x else c0) with h | h
      · rw [h]
        split
        · right; exact List.mem_cons_self _ _
        · left; rfl
      · right; exact List.mem_cons_of_mem _ h

theorem argmaxCount_le (y : List Val) (cs : List Val) :
    ∀ (c0 c : Val), (c = c0 ∨ c ∈ cs) →
      y.count c ≤ y.count (argmaxCount y c0 cs) := by
  induction cs with
  | nil =>
      intro c0 c hc
      rcases hc with rfl | h
      · exact le_refl _
      · simp at h
  | cons x xs ih =>
      intro c0 c hc
      have step : argmaxCount y c0 (x :: xs) =
          argmaxCount y (if y.count c0 < y.count x then x else c0) xs := rfl
      rw [step]
      have base : ∀ b, (b = c0 ∨ b = x) →
          y.count b ≤ y.count (if y.count c0 < y.count x then x else c0) := by
        intro b hb
        rcases hb with rfl | rfl
        · split
          · rename_i hlt; exact le_of_lt hlt
          · exact le_refl _
        · split
          · exact le_refl _
          · rename_i hlt; omega
      rcases hc with rfl | hx
      · exact le_trans (base c (Or.inl rfl)) (ih _ _ (Or.inl rfl))
      · rcases List.mem_cons.mp hx with rfl | hmem
        · exact le_trans (base c (Or.inr rfl)) (ih _ _ (Or.inl rfl))
        · exact ih _ c (Or.inr hmem)

theorem fit_ok_spec {hu : String} {uv : ℤ} {y : List Val} {st : SafeLabelEncoder}
    (h : SafeLabelEncoder.fit hu uv y = Except.ok st) :
    st.handle_unknown = hu ∧ st.unknown_value = uv ∧
    st.classes_ = sortedUnique (dropNull y) ∧
    st.mode_class_ ∈ st.classes_ ∧
    (∀ c ∈ st.classes_,
      (dropNull y).count c ≤ (dropNull y).count st.mode_class_) ∧
    st.unseen_labels_ = [] := by
  cases hsu : sortedUnique (dropNull y) with
  | nil =>
      simp only [SafeLabelEncoder.fit, hsu] at h
      exact Except.noConfusion h
  | cons c cs =>
      simp only [SafeLabelEncoder.fit, hsu, Except.ok.injEq] at h
      subst h
      refine ⟨rfl, rfl, rfl, ?_, ?_, rfl⟩
      · show argmaxCount (dropNull y) c cs ∈ c :: cs
        rcases argmaxCount_mem (dropNull y) c cs with h1 | h1
        · rw [h1]; exact List.mem_cons_self _ _
        · exact List.mem_cons_of_mem _ h1
      · intro d hd
        exact argmaxCount_le (dropNull y) cs c d
          (by rcases List.mem_cons.mp hd with h1 | h1
              · exact Or.inl h1
              · exact Or.inr h1)

theorem transform_ok_spec {st st1 : SafeLabelEncoder} {y : List Val}
    {codes : List ℤ} {stats : TransformStats}
    (h : st.transform y = Except.ok (st1, codes, stats)) :
    st1.handle_unknown = st.handle_unknown ∧
    st1.unknown_value = st.unknown_value ∧
    st1.classes_ = st.classes_ ∧ st1.mode_class_ = st.mode_class_ := by
  unfold SafeLabelEncoder.transform at h
  cases hl : encodeLoop st 0 y with
  | error e => rw [hl] at h; simp at h
  | ok r =>
      rw [hl] at h
      obtain ⟨codes0, cnt0, lbls0⟩ := r
      simp only [Except.ok.injEq, Prod.mk.injEq] at h
      obtain ⟨h1, -, -⟩ := h
      rw [← h1]
      exact ⟨rfl, rfl, rfl, rfl⟩

theorem encodeLoop_all_seen {st : SafeLabelEncoder} {y : List Val}
    (h : ∀ v ∈ y, v.isNull = false ∧ v ∈ st.classes_) (i : ℕ) :
    encodeLoop st i y =
      Except.ok (y.map (fun v => (idxOfVal v st.classes_ : ℤ)), 0, []) := by
  induction y generalizing i with
  | nil => rfl
  | cons v rest ih =>
      obtain ⟨hn, hm⟩ := h v (List.mem_cons_self _ _)
      have hrest : ∀ w ∈ rest, w.isNull = false ∧ w ∈ st.classes_ :=
        fun w hw => h w (List.mem_cons_of_mem _ hw)
      simp only [encodeLoop, encodeStep, hn, if_pos hm]
      rw [ih hrest (i + 1)]
      simp

theorem encodeLoop_use_mode {st : SafeLabelEncoder}
    (hstrat : st.handle_unknown = "use_mode")
    (hmode : st.mode_class_ ∈ st.classes_) {y : List Val}
    (hnn : ∀ v ∈ y, v.isNull = false) (i : ℕ) :
    ∃ codes cnt lbls,
      encodeLoop st i y = Except.ok (codes, cnt, lbls) ∧
      ∀ c ∈ codes, 0 ≤ c ∧ c < (st.classes_.length : ℤ) := by
  induction y generalizing i with
  | nil => exact ⟨[], 0, [], rfl, by simp⟩
  | cons v rest ih =>
      obtain ⟨codes, cnt, lbls, hloop, hbound⟩ := ih
        (fun w hw => hnn w (List.mem_cons_of_mem _ hw)) (i + 1)
      have hn : v.isNull = false := hnn v (List.mem_cons_self _ _)
      by_cases hv : v ∈ st.classes_
      · refine ⟨(idxOfVal v st.classes_ : ℤ) :: codes, cnt, lbls, ?_, ?_⟩
        · simp only [encodeLoop, encodeStep, hn, if_pos hv, hloop]
          simp
        · intro c hc
          rcases List.mem_cons.mp hc with rfl | hc2
          · exact ⟨Int.ofNat_nonneg _, by exact_mod_cast idxOfVal_lt_length hv⟩
          · exact hbound c hc2
      · refine ⟨(idxOfVal st.mode_class_ st.classes_ : ℤ) :: codes, 1 + cnt,
          v :: lbls, ?_, ?_⟩
        · have hne : st.handle_unknown = "error" → False := by
            rw [hstrat]; intro hcon; exact absurd hcon (by decide)
          simp only [encodeLoop, encodeStep, hn, if_neg hv, hstrat, hloop]
          simp
        · intro c hc
          rcases List.mem_cons.mp hc with rfl | hc2
          · exact ⟨Int.ofNat_nonneg _, by exact_mod_cast idxOfVal_lt_length hmode⟩
          · exact hbound c hc2

theorem lt_five_percent_mul (u n : ℕ) :
    ((u : ℚ) < 5 / 100 * (n : ℚ)) ↔ 20 * u < n := by
  constructor
  · intro h
    have h2 : (20 * u : ℚ) < (n : ℚ) := by push_cast; linarith
    exact_mod_cast h2
  · intro h
    have h2 : ((20 * u : ℕ) : ℚ) < (n : ℚ) := by exact_mod_cast h
    push_cast at h2
    linarith

theorem div_lt_five_percent (u n : ℕ) (hn : 0 < n) :
    ((u : ℚ) / (n : ℚ) < 5 / 100) ↔ 20 * u < n := by
  have hq : (0 : ℚ) < (n : ℚ) := by exact_mod_cast hn
  rw [div_lt_iff hq]
  constructor
  · intro h
    have h2 : (20 * u : ℚ) < (n : ℚ) := by push_cast at h ⊢; linarith
    exact_mod_cast h2
  · intro h
    have h2 : ((20 * u : ℕ) : ℚ) < (n : ℚ) := by exact_mod_cast h
    push_cast at h2 ⊢
    linarith

theorem dropNull_map_vnum (y : List ℚ) :
    dropNull (y.map Val.vNum) = y.map Val.vNum := by
  rw [dropNull, List.filter_eq_self]
  intro v hv
  rcases List.mem_map.mp hv with ⟨q, -, rfl⟩
  rfl

theorem filterMap_toNumericOpt_map (y : List ℚ) :
    (y.map Val.vNum).filterMap toNumericOpt = y := by
  induction y with
  | nil => rfl
  | cons q qs ih => simp [toNumericOpt, ih]

theorem dedup_map_vnum (y : List ℚ) :
    (y.map Val.vNum).dedup = y.dedup.map Val.vNum := by
  induction y with
  | nil => rfl
  | cons q qs ih =>
      by_cases hq : q ∈ qs
      · have h1 : Val.vNum q ∈ qs.map Val.vNum := List.mem_map_of_mem _ hq
        rw [List.map_cons, List.dedup_cons_of_mem h1, List.dedup_cons_of_mem hq, ih]
      · have h1 : Val.vNum q ∉ qs.map Val.vNum := by
          intro hc
          rcases List.mem_map.mp hc with ⟨r, hr, he⟩
          cases he
          exact hq hr
        rw [List.map_cons, List.dedup_cons_of_not_mem h1,
          List.dedup_cons_of_not_mem hq, ih, List.map_cons]

theorem no_vstr_map_vnum (y : List ℚ) :
    (y.map Val.vNum).any (fun v => match v with
      | Val.vStr _ => true | _ => false) = false := by
  induction y with
  | nil => rfl
  | cons q qs ih => simpa using ih

theorem map_eq_self_of {α : Type} (f : α → α) (l : List α)
    (h : ∀ x ∈ l, f x = x) : l.map f = l := by
  induction l with
  | nil => rfl
  | cons x xs ih =>
      rw [List.map_cons, h x (List.mem_cons_self _ _),
        ih (fun w hw => h w (List.mem_cons_of_mem _ hw))]

theorem decodeOne_valid_idx {st : SafeLabelEncoder}
    (hsent : st.unknown_value < 0 ∨ (st.classes_.length : ℤ) ≤ st.unknown_value)
    {v : Val} (hv : v ∈ st.classes_) :
    decodeOne st ((idxOfVal v st.classes_ : ℤ)) = v := by
  have hlt : idxOfVal v st.classes_ < st.classes_.length := idxOfVal_lt_length hv
  have hnz : ((idxOfVal v st.classes_ : ℤ)) ≠ st.unknown_value := by
    rcases hsent with h1 | h1
    · have := Int.ofNat_nonneg (idxOfVal v st.classes_)
      omega
    · have h2 : ((idxOfVal v st.classes_ : ℤ)) < (st.classes_.length : ℤ) := by
        exact_mod_cast hlt
      omega
  have hrange : ¬((idxOfVal v st.classes_ : ℤ) < 0 ∨
      (st.classes_.length : ℤ) ≤ (idxOfVal v st.classes_ : ℤ)) := by
    push_neg
    constructor
    · exact Int.ofNat_nonneg _
    · exact_mod_cast hlt
  rw [decodeOne, if_neg hnz, if_neg hrange]
  have htn : ((idxOfVal v st.classes_ : ℤ)).toNat = idxOfVal v st.classes_ := by
    omega
  rw [htn]
  exact getD_idxOfVal hv _

theorem decodeOne_mem {st : SafeLabelEncoder}
    (hsent : st.unknown_value < 0 ∨ (st.classes_.length : ℤ) ≤ st.unknown_value)
    {c : ℤ} (h0 : 0 ≤ c) (hlen : c < (st.classes_.length : ℤ)) :
    decodeOne st c ∈ st.classes_ := by
  have hnz : c ≠ st.unknown_value := by
    rcases hsent with h1 | h1 <;> omega
  have hrange : ¬(c < 0 ∨ (st.classes_.length : ℤ) ≤ c) := by omega
  rw [decodeOne, if_neg hnz, if_neg hrange]
  exact getD_mem (by omega) _

/-- C6: for every non-empty label vector containing no nulls, fitting the
Safe Label Encoder with its constructor defaults (strategy
`use_encoded_value`, unknown sentinel `-1`), transforming the vector, and
inverse-transforming the encoded values reproduces the original labels
exactly, with zero unseen labels (hence no unknown or invalid
placeholders). -/
theorem c6_roundtrip (y : List Val) (hne : y ≠ [])
    (hnn : ∀ v ∈ y, v.isNull = false) :
    encodeThenDecode "use_encoded_value" (-1) y y = Except.ok (y, 0) := by
  have hdn : dropNull y = y := List.filter_eq_self.mpr (by
    intro v hv
    simp [hnn v hv])
  obtain ⟨v0, hv0⟩ : ∃ v, v ∈ y := by
    cases y with
    | nil => exact absurd rfl hne
    | cons a l => exact ⟨a, List.mem_cons_self _ _⟩
  cases hsu : sortedUnique (dropNull y) with
  | nil =>
      exfalso
      have hm : v0 ∈ sortedUnique (dropNull y) := by
        rw [mem_sortedUnique, hdn]
        exact hv0
      rw [hsu] at hm
      simp at hm
  | cons c cs =>
      have hfit : SafeLabelEncoder.fit "use_encoded_value" (-1) y =
          Except.ok
            { handle_unknown := "use_encoded_value"
              unknown_value := -1
              classes_ := c :: cs
              mode_class_ := argmaxCount (dropNull y) c cs
              unseen_labels_ := [] } := by
        simp only [SafeLabelEncoder.fit, hsu]
      set st0 : SafeLabelEncoder :=
        { handle_unknown := "use_encoded_value"
          unknown_value := -1
          classes_ := c :: cs
          mode_class_ := argmaxCount (dropNull y) c cs
          unseen_labels_ := [] } with hst0
      have hmem : ∀ v ∈ y, v ∈ st0.classes_ := by
        intro v hv
        show v ∈ c :: cs
        rw [← hsu, mem_sortedUnique, hdn]
        exact hv
      have hall : ∀ v ∈ y, v.isNull = false ∧ v ∈ st0.classes_ :=
        fun v hv => ⟨hnn v hv, hmem v hv⟩
      have hloop := encodeLoop_all_seen hall 0
      simp only [encodeThenDecode, hfit, SafeLabelEncoder.transform, hloop,
        SafeLabelEncoder.inverse_transform, List.map_map, Except.ok.injEq,
        Prod.mk.injEq]
      refine ⟨?_, trivial⟩
      apply map_eq_self_of
      intro v hv
      exact decodeOne_valid_idx (Or.inl (by norm_num)) (hmem v hv)

/-- C6 witness: a concrete three-element label vector round-trips exactly. -/
theorem c6_roundtrip_witness :
    encodeThenDecode "use_encoded_value" (-1)
      [Val.vStr "b", Val.vStr "a", Val.vStr "b"]
      [Val.vStr "b", Val.vStr "a", Val.vStr "b"] =
      Except.ok ([Val.vStr "b", Val.vStr "a", Val.vStr "b"], 0) :=
  c6_roundtrip [Val.vStr "b", Val.vStr "a", Val.vStr "b"]
    (by decide) (by decide)

theorem classes_not_null {st : SafeLabelEncoder} {strat : String} {uv : ℤ}
    {yFit : List Val} (hfit : SafeLabelEncoder.fit strat uv yFit = Except.ok st) :
    ∀ w ∈ st.classes_, w.isNull = false := by
  intro w hw
  rw [(fit_ok_spec hfit).2.2.1, mem_sortedUnique] at hw
  simp only [dropNull, List.mem_filter] at hw
  simpa using hw.2

/-- C3: semantics of `SafeLabelEncoder.transform` for every value, given a
fitted encoder: a null maps to the unknown sentinel except that the `error`
strategy raises on it; an in-vocabulary value maps to its vocabulary index
under every strategy; an out-of-vocabulary value raises under `error`, maps
to the unknown sentinel (default -1) under `use_encoded_value`, and maps to
the index of the most frequent training class under `use_mode`.  The raise
happens inside `transform`, which the trainer calls before any metric
computation. -/
theorem c3_transform_value_semantics (strat : String) (uv : ℤ)
    (yFit : List Val) (st : SafeLabelEncoder) (v : Val)
    (hfit : SafeLabelEncoder.fit strat uv yFit = Except.ok st) :
    (strat = "error" → isError (transformCodes st [Val.vNull]) = true) ∧
    (strat ≠ "error" →
      transformCodes st [Val.vNull] = Except.ok [uv]) ∧
    (v ∈ st.classes_ →
      transformCodes st [v] = Except.ok [(idxOfVal v st.classes_ : ℤ)]) ∧
    (v ∉ st.classes_ → v.isNull = false →
      (strat = "error" → isError (transformCodes st [v]) = true) ∧
      (strat = "use_encoded_value" →
        transformCodes st [v] = Except.ok [uv]) ∧
      (strat = "use_mode" →
        transformCodes st [v] =
          Except.ok [(idxOfVal st.mode_class_ st.classes_ : ℤ)] ∧
        st.mode_class_ ∈ st.classes_ ∧
        ∀ c ∈ st.classes_,
          (dropNull yFit).count c ≤ (dropNull yFit).count st.mode_class_)) := by
  have hs := fit_ok_spec hfit
  have hhu : st.handle_unknown = strat := hs.1
  have huv : st.unknown_value = uv := hs.2.1
  refine ⟨?_, ?_, ?_, ?_⟩
  · intro he
    have h1 : st.handle_unknown = "error" := by rw [hhu, he]
    simp [transformCodes, SafeLabelEncoder.transform, encodeLoop, encodeStep,
      Val.isNull, h1, isError]
  · intro he
    have h1 : ¬(st.handle_unknown = "error") := by rw [hhu]; exact he
    simp [transformCodes, SafeLabelEncoder.transform, encodeLoop, encodeStep,
      Val.isNull, h1, huv]
  · intro hv
    have hvn : v.isNull = false := classes_not_null hfit v hv
    simp [transformCodes, SafeLabelEncoder.transform, encodeLoop, encodeStep,
      hvn, if_pos hv]
  · intro hv hvn
    refine ⟨?_, ?_, ?_⟩
    · intro he
      have h1 : st.handle_unknown = "error" := by rw [hhu, he]
      simp [transformCodes, SafeLabelEncoder.transform, encodeLoop, encodeStep,
        hvn, if_neg hv, h1, isError]
    · intro he
      have h1 : st.handle_unknown = "use_encoded_value" := by rw [hhu, he]
      simp [transformCodes, SafeLabelEncoder.transform, encodeLoop, encodeStep,
        hvn, if_neg hv, h1, huv]
    · intro he
      have h1 : st.handle_unknown = "use_mode" := by rw [hhu, he]
      refine ⟨?_, hs.2.2.2.1, hs.2.2.2.2.1⟩
      simp [transformCodes, SafeLabelEncoder.transform, encodeLoop, encodeStep,
        hvn, if_neg hv, h1]

/-- C3 witness: encoder fitted on labels 1, 1, 2 with strategy `use_mode`;
the unseen value 9 maps to the index of the mode class 1, namely 0. -/
theorem c3_transform_value_semantics_witness :
    transformCodes
      { handle_unknown := "use_mode", unknown_value := -1,
        classes_ := [Val.vNum 1, Val.vNum 2], mode_class_ := Val.vNum 1,
        unseen_labels_ := [] } [Val.vNum 9] = Except.ok [(0 : ℤ)] := by
  have hfit : SafeLabelEncoder.fit "use_mode" (-1)
      [Val.vNum 1, Val.vNum 1, Val.vNum 2] = Except.ok
      { handle_unknown := "use_mode", unknown_value := -1,
        classes_ := [Val.vNum 1, Val.vNum 2], mode_class_ := Val.vNum 1,
        unseen_labels_ := [] } := by rfl
  have h := (c3_transform_value_semantics "use_mode" (-1)
    [Val.vNum 1, Val.vNum 1, Val.vNum 2] _ (Val.vNum 9) hfit).2.2.2
    (by decide) (by decide)
  exact h.2.2 rfl |>.1

/-- C10 counterexample: a Safe Label Encoder configured with the `use_mode`
strategy but with the unknown sentinel set to the valid index 0, fitted on
classes 1 and 2, encodes the seen value 1 to the valid index 0 — yet
inverse-transform renders that legitimate code as the placeholder string
UNKNOWN_0, which is not a training class.  So under `use_mode` alone,
inverse-transform is not guaranteed to yield only real training classes. -/
theorem c10_counterexample :
    encodeThenDecode "use_mode" 0 [Val.vNum 1, Val.vNum 2] [Val.vNum 1] =
      Except.ok ([Val.vStr "<UNKNOWN_0>"], 0) ∧
    Val.vStr "<UNKNOWN_0>" ∉ [Val.vNum 1, Val.vNum 2] := by
  constructor
  · rfl
  · decide

/-- C10 as amended: for every encoder fitted with the `use_mode` strategy
whose unknown sentinel is not itself a valid vocabulary index (true of the
default -1), transforming a null-free vector yields only valid indices into
the class vocabulary, and the subsequent inverse-transform yields only real
training classes, never a placeholder. -/
theorem c10_use_mode_valid_indices (uv : ℤ) (yFit yIn : List Val)
    (st : SafeLabelEncoder)
    (hfit : SafeLabelEncoder.fit "use_mode" uv yFit = Except.ok st)
    (hsent : uv < 0 ∨ (st.classes_.length : ℤ) ≤ uv)
    (hnn : ∀ v ∈ yIn, v.isNull = false) :
    (∃ codes, transformCodes st yIn = Except.ok codes ∧
      ∀ c ∈ codes, 0 ≤ c ∧ c < (st.classes_.length : ℤ)) ∧
    (∃ decoded cnt,
      encodeThenDecode "use_mode" uv yFit yIn = Except.ok (decoded, cnt) ∧
      ∀ d ∈ decoded, d ∈ st.classes_) := by
  have hs := fit_ok_spec hfit
  have hstrat : st.handle_unknown = "use_mode" := hs.1
  have huv : st.unknown_value = uv := hs.2.1
  obtain ⟨codes, cnt, lbls, hloop, hbound⟩ :=
    encodeLoop_use_mode hstrat hs.2.2.2.1 hnn 0
  have hsent2 : st.unknown_value < 0 ∨
      (st.classes_.length : ℤ) ≤ st.unknown_value := by rw [huv]; exact hsent
  constructor
  · refine ⟨codes, ?_, hbound⟩
    simp only [transformCodes, SafeLabelEncoder.transform, hloop]
  · refine ⟨codes.map (decodeOne st), cnt, ?_, ?_⟩
    · simp only [encodeThenDecode, hfit, SafeLabelEncoder.transform, hloop,
        SafeLabelEncoder.inverse_transform]
      rfl
    · intro d hd
      rcases List.mem_map.mp hd with ⟨c, hc, rfl⟩
      exact decodeOne_mem hsent2 (hbound c hc).1 (hbound c hc).2

/-- C10 witness: encoder fitted with `use_mode` and the default sentinel -1
on classes 1 and 2; transforming the unseen value 5 yields only valid
vocabulary indices. -/
theorem c10_use_mode_valid_indices_witness :
    ∃ codes, transformCodes
      { handle_unknown := "use_mode", unknown_value := -1,
        classes_ := [Val.vNum 1, Val.vNum 2], mode_class_ := Val.vNum 1,
        unseen_labels_ := [] } [Val.vNum 5] = Except.ok codes ∧
      ∀ c ∈ codes, 0 ≤ c ∧
        c < (([Val.vNum 1, Val.vNum 2] : List Val).length : ℤ) :=
  (c10_use_mode_valid_indices (-1) [Val.vNum 1, Val.vNum 1, Val.vNum 2]
    [Val.vNum 5]
    { handle_unknown := "use_mode", unknown_value := -1,
      classes_ := [Val.vNum 1, Val.vNum 2], mode_class_ := Val.vNum 1,
      unseen_labels_ := [] }
    (by rfl) (Or.inl (by decide)) (by decide)).1

theorem safe_encode_encoder_state (strat : String) (ytr yte : List Val)
    (r : SafeEncodeResult)
    (h : safe_encode_labels strat ytr yte = Except.ok r) :
    ∃ st, SafeLabelEncoder.fit strat (-1) ytr = Except.ok st ∧
      r.encoder.classes_ = st.classes_ ∧
      r.encoder.mode_class_ = st.mode_class_ := by
  cases hf : SafeLabelEncoder.fit strat (-1) ytr with
  | error e =>
      simp only [safe_encode_labels, hf] at h
      exact Except.noConfusion h
  | ok enc =>
      simp only [safe_encode_labels, hf] at h
      cases ht1 : enc.transform ytr with
      | error e =>
          simp only [ht1] at h
          exact Except.noConfusion h
      | ok trip1 =>
          obtain ⟨enc1, tc1, ts1⟩ := trip1
          simp only [ht1] at h
          cases ht2 : enc1.transform yte with
          | error e =>
              simp only [ht2] at h
              exact Except.noConfusion h
          | ok trip2 =>
              obtain ⟨enc2, tc2, ts2⟩ := trip2
              simp only [ht2, Except.ok.injEq] at h
              have e1 := transform_ok_spec ht1
              have e2 := transform_ok_spec ht2
              refine ⟨enc, rfl, ?_, ?_⟩
              · rw [← h]
                show enc2.classes_ = enc.classes_
                rw [e2.2.2.1, e1.2.2.1]
              · rw [← h]
                show enc2.mode_class_ = enc.mode_class_
                rw [e2.2.2.2, e1.2.2.2]

/-- C2: no transformer or encoder observes test-split rows during fitting.
The fitted preprocessing state produced by the fit-and-transform phase of
`preprocess_data` is invariant under every change of the test partition
(it is computed by `fitPipeline` from the training partition alone, the
test partition being passed only to `transformTable`); and the Safe Label
Encoder returned by `safe_encode_labels` carries exactly the class
vocabulary and mode class of the encoder fitted on the training labels
alone, for every test label vector. -/
theorem c2_fit_only_on_train (use_te : Bool) (vt : ℚ) (Xtr Xte Xte2 : Table)
    (ytr yte yte2 : List Val) (strat : String) :
    fittedOf (pipelineFitPhase use_te vt Xtr Xte ytr) =
      fittedOf (pipelineFitPhase use_te vt Xtr Xte2 ytr) ∧
    (∀ r r2 : SafeEncodeResult,
      safe_encode_labels strat ytr yte = Except.ok r →
      safe_encode_labels strat ytr yte2 = Except.ok r2 →
      r.encoder.classes_ = r2.encoder.classes_ ∧
      r.encoder.mode_class_ = r2.encoder.mode_class_) ∧
    (∀ (r : SafeEncodeResult) (st : SafeLabelEncoder),
      safe_encode_labels strat ytr yte = Except.ok r →
      SafeLabelEncoder.fit strat (-1) ytr = Except.ok st →
      r.encoder.classes_ = st.classes_ ∧
      r.encoder.mode_class_ = st.mode_class_) := by
  refine ⟨?_, ?_, ?_⟩
  · cases hb : build_pipeline Xtr use_te vt with
    | error e => simp only [pipelineFitPhase, hb, fittedOf]
    | ok plan => simp only [pipelineFitPhase, hb, fittedOf]
  · intro r r2 h1 h2
    obtain ⟨st1, hf1, hc1, hm1⟩ := safe_encode_encoder_state strat ytr yte r h1
    obtain ⟨st2, hf2, hc2, hm2⟩ := safe_encode_encoder_state strat ytr yte2 r2 h2
    rw [hf1] at hf2
    have h12 : st1 = st2 := Except.ok.inj hf2
    subst h12
    exact ⟨by rw [hc1, hc2], by rw [hm1, hm2]⟩
  · intro r st h1 h2
    obtain ⟨st1, hf1, hc1, hm1⟩ := safe_encode_encoder_state strat ytr yte r h1
    rw [h2] at hf1
    have h12 : st1 = st := (Except.ok.inj hf1).symm
    subst h12
    exact ⟨hc1, hm1⟩

/-- C2 witness: at a concrete one-column training table, the fitted
pipeline state is unchanged when the test partition changes. -/
theorem c2_fit_only_on_train_witness :
    fittedOf (pipelineFitPhase false 0
      { cols := [("x", [Val.vNum 1, Val.vNum 2])] }
      { cols := [("x", [Val.vNum 3])] } [Val.vNum 0, Val.vNum 1]) =
    fittedOf (pipelineFitPhase false 0
      { cols := [("x", [Val.vNum 1, Val.vNum 2])] }
      { cols := [("x", [Val.vNum 7, Val.vNum 8])] } [Val.vNum 0, Val.vNum 1]) :=
  (c2_fit_only_on_train false 0
    { cols := [("x", [Val.vNum 1, Val.vNum 2])] }
    { cols := [("x", [Val.vNum 3])] }
    { cols := [("x", [Val.vNum 7, Val.vNum 8])] }
    [Val.vNum 0, Val.vNum 1] [] [] "use_mode").1

/-- C5: every column whose null percentage meets or exceeds the configured
null threshold times 100 (default threshold 0.95) is classified `invalid`
and recommended `drop` by the Column Health Analyzer, regardless of its
content: the early return fires before any type inference. -/
theorem c5_high_null_drop (cfg : ValidatorConfig) (vs : List Val)
    (name : String) (h : cfg.max_null_rate * 100 ≤ nullPctOf vs) :
    (analyzeColumn cfg vs name).inferred_type = "invalid" ∧
    (analyzeColumn cfg vs name).recommended_action = "drop" := by
  simp [analyzeColumn, if_pos h]

/-- C5 witness: a fully null one-entry column under the default
configuration is dropped as invalid. -/
theorem c5_high_null_drop_witness :
    (95 : ℚ) / 100 * 100 ≤ nullPctOf [Val.vNull] ∧
    (analyzeColumn {} [Val.vNull] "c").inferred_type = "invalid" ∧
    (analyzeColumn {} [Val.vNull] "c").recommended_action = "drop" := by
  have hp : ({} : ValidatorConfig).max_null_rate * 100 ≤ nullPctOf [Val.vNull] := by
    show (95 : ℚ) / 100 * 100 ≤ nullPctOf [Val.vNull]
    norm_num [nullPctOf, Val.isNull, List.filter]
  refine ⟨hp, (c5_high_null_drop {} [Val.vNull] "c" hp).1,
    (c5_high_null_drop {} [Val.vNull] "c" hp).2⟩

/-- C9: for every cleaned dataset with at least 10 rows and every requested
test fraction whose implied test-sample count is below 5, the preprocessing
step does not fail but adjusts the fraction to the maximum of 5 divided by
the row count and 0.1, and the resulting test partition of
`train_test_split` has at least 5 and fewer than all of the rows (the split
succeeds); in particular 12 rows with a 20 percent request split
successfully with 5 test samples. -/
theorem c9_test_size_adjustment (n : ℕ) (frac : ℚ) (h10 : 10 ≤ n)
    (hsmall : (n : ℚ) * frac < 5) :
    adjustTestSize n frac = max (5 / (n : ℚ)) (1 / 10) ∧
    5 ≤ nTestSamples n (adjustTestSize n frac) ∧
    nTestSamples n (adjustTestSize n frac) < n := by
  have hadj : adjustTestSize n frac = max (5 / (n : ℚ)) (1 / 10) := by
    rw [adjustTestSize, if_pos hsmall]
  have hn0 : (0 : ℚ) < (n : ℚ) := by
    exact_mod_cast (by omega : 0 < n)
  have hn10 : (10 : ℚ) ≤ (n : ℚ) := by exact_mod_cast h10
  have hmul : max (5 / (n : ℚ)) (1 / 10) * (n : ℚ) =
      max ((5 : ℚ)) ((n : ℚ) / 10) := by
    rw [max_mul_of_nonneg _ _ (le_of_lt hn0)]
    congr 1
    · field_simp
    · ring
  have hx5 : (5 : ℚ) ≤ max (5 / (n : ℚ)) (1 / 10) * (n : ℚ) := by
    rw [hmul]; exact le_max_left _ _
  have hxle : max (5 / (n : ℚ)) (1 / 10) * (n : ℚ) ≤ (n : ℚ) - 1 := by
    rw [hmul]
    apply max_le
    · linarith
    · linarith
  have hc5 : (5 : ℤ) ≤ Int.ceil (max (5 / (n : ℚ)) (1 / 10) * (n : ℚ)) := by
    have := le_trans hx5 (Int.le_ceil _)
    exact_mod_cast this
  have hcn : Int.ceil (max (5 / (n : ℚ)) (1 / 10) * (n : ℚ)) ≤ (n : ℤ) - 1 := by
    apply Int.ceil_le.mpr
    push_cast
    exact hxle
  refine ⟨hadj, ?_, ?_⟩
  · rw [hadj, nTestSamples]
    omega
  · rw [hadj, nTestSamples]
    omega

/-- C9 witness: a 12-row dataset with a requested 20 percent test split is
adjusted and splits with at least 5 test samples. -/
theorem c9_test_size_adjustment_witness :
    adjustTestSize 12 (1 / 5) = max (5 / (12 : ℚ)) (1 / 10) ∧
    5 ≤ nTestSamples 12 (adjustTestSize 12 (1 / 5)) ∧
    nTestSamples 12 (adjustTestSize 12 (1 / 5)) < 12 :=
  c9_test_size_adjustment 12 (1 / 5) (by norm_num) (by norm_num)

/-- C7 counterexample: on y_true = y_pred = [0, 2] — exactly two distinct
evaluation classes — the sklearn `average="binary"` call raises (the
positive label 1 is not among the present labels), so the source's
`except` fallback returns the accuracy value 1 for precision, not the
binary-averaged precision with positive label 1, which is 0.  Hence the
returned precision/recall/F1 are not the binary-averaged values for every
two-class evaluation vector, as the claim states. -/
theorem c7_counterexample :
    ([0, 2] : List ℤ).dedup.length = 2 ∧
    binaryAverageRaises [0, 2] [0, 2] = true ∧
    (ModelTrainer.classification_metrics [0, 2] [0, 2]).precision = 1 ∧
    precOf 1 [0, 2] [0, 2] = 0 := by
  have hc : countPairs [0, 2] [0, 2] (fun a b => a = b) = 2 := by decide
  have hm : (ModelTrainer.classification_metrics [0, 2] [0, 2]).precision =
      accuracyScore [0, 2] [0, 2] := by
    simp only [ModelTrainer.classification_metrics,
      show (([0, 2] : List ℤ).dedup.length = 2) from by decide,
      show binaryAverageRaises [0, 2] [0, 2] = true from by decide]
    norm_num
  refine ⟨by decide, by decide, ?_, by decide⟩
  rw [hm, accuracyScore, hc]
  norm_num

/-- C7 as amended: the classification metric computation always reports
the accuracy score; with exactly one distinct evaluation class it
short-circuits precision, recall and F1 to 1; with exactly two distinct
classes it returns the binary-averaged metrics with positive label 1
whenever the sklearn binary call does not raise (at most two present
labels, among them the positive label 1 — true in particular of
encoder-produced labels 0 and 1), and the accuracy value for each of
precision, recall and F1 when that call raises; with any other class count
it returns the support-weighted averages. -/
theorem c7_metrics_routing (yt yp : List ℤ) :
    (ModelTrainer.classification_metrics yt yp).accuracy = accuracyScore yt yp ∧
    (yt.dedup.length = 1 →
      ModelTrainer.classification_metrics yt yp =
        { accuracy := accuracyScore yt yp, precision := 1, «recall» := 1,
          f1_score := 1 }) ∧
    (yt.dedup.length = 2 → binaryAverageRaises yt yp = false →
      ModelTrainer.classification_metrics yt yp =
        { accuracy := accuracyScore yt yp, precision := precOf 1 yt yp,
          «recall» := recOf 1 yt yp, f1_score := f1Of 1 yt yp }) ∧
    (yt.dedup.length = 2 → binaryAverageRaises yt yp = true →
      ModelTrainer.classification_metrics yt yp =
        { accuracy := accuracyScore yt yp,
          precision := accuracyScore yt yp,
          «recall» := accuracyScore yt yp,
          f1_score := accuracyScore yt yp }) ∧
    (yt.dedup.length ≠ 1 → yt.dedup.length ≠ 2 →
      ModelTrainer.classification_metrics yt yp =
        { accuracy := accuracyScore yt yp,
          precision := weightedAvg precOf yt yp,
          «recall» := weightedAvg recOf yt yp,
          f1_score := weightedAvg f1Of yt yp }) := by
  refine ⟨?_, ?_, ?_, ?_, ?_⟩
  · simp only [ModelTrainer.classification_metrics]
    split_ifs <;> rfl
  · intro h
    simp [ModelTrainer.classification_metrics, h]
  · intro h hb
    simp [ModelTrainer.classification_metrics, h, hb]
  · intro h hb
    simp [ModelTrainer.classification_metrics, h, hb]
  · intro h1 h2
    simp [ModelTrainer.classification_metrics, h1, h2]

/-- C7 witness for the amended claim: on y_true = [0, 1, 0] and
y_pred = [0, 1, 1] (two distinct classes, present labels 0 and 1) the
binary call does not raise and the binary-averaged metrics with positive
label 1 are returned. -/
theorem c7_metrics_routing_witness :
    ModelTrainer.classification_metrics [0, 1, 0] [0, 1, 1] =
      { accuracy := accuracyScore [0, 1, 0] [0, 1, 1],
        precision := precOf 1 [0, 1, 0] [0, 1, 1],
        «recall» := recOf 1 [0, 1, 0] [0, 1, 1],
        f1_score := f1Of 1 [0, 1, 0] [0, 1, 1] } :=
  (c7_metrics_routing [0, 1, 0] [0, 1, 1]).2.2.1 (by decide) (by decide)

/-- C1 as amended: for every label vector of integral rationals with fewer
than 20 distinct values, the preprocessing service's Problem-Type
Classifier returns `classification`; the trainer's implementation
additionally requires the distinct-value count to be below 5 percent of
the sample count; and the validator's implementation (whose unique-count
threshold defaults to 10, not 20) requires the distinct-value count to be
below 10 or below 5 percent of the sample count. -/
theorem c1_problem_type_threshold (y : List ℚ)
    (hint : ∀ q ∈ y, q.den = 1) (hu : y.dedup.length < 20) :
    DataPreprocessing.detect_problem_type (y.map Val.vNum) = "classification" ∧
    (20 * y.dedup.length < y.length →
      ModelTrainer.infer_problem_type (y.map Val.vNum) = "classification") ∧
    (y.dedup.length < 10 ∨ 20 * y.dedup.length < y.length →
      validatorClassify {} (y.map Val.vNum) = "classification") := by
  have hall : y.all (fun q => decide (q.den = 1)) = true := by
    rw [List.all_eq_true]
    intro q hq
    simpa using hint q hq
  by_cases hy : y = []
  · subst hy
    refine ⟨rfl, ?_, ?_⟩
    · intro h; simp at h
    · intro h; rfl
  · have hlen : 0 < y.length := List.length_pos.mpr hy
    have hq1 : ((y.length : ℚ)) / ((y.length : ℚ)) = 1 :=
      div_self (by exact_mod_cast hlen.ne')
    refine ⟨?_, ?_, ?_⟩
    · -- DataPreprocessing._detect_problem_type
      simp only [DataPreprocessing.detect_problem_type, dropNull_map_vnum,
        filterMap_toNumericOpt_map, List.length_map, hall]
      rw [if_neg (by omega), if_neg (by rw [hq1]; norm_num),
        if_pos ⟨trivial, hu⟩]
    · -- ModelTrainer._infer_problem_type
      intro h20
      simp only [ModelTrainer.infer_problem_type, dropNull_map_vnum,
        filterMap_toNumericOpt_map, dedup_map_vnum, List.length_map,
        no_vstr_map_vnum, hall]
      rw [if_neg (by simp)]
      rw [if_pos ⟨hu, (lt_five_percent_mul _ _).mpr h20, by simp⟩]
    · -- DataValidator._infer_problem_type via validatorClassify
      intro hdisj
      have hfilternull : (y.map Val.vNum).filter Val.isNull = [] := by
        apply List.filter_eq_nil_iff.mpr
        intro a ha
        rcases List.mem_map.mp ha with ⟨q, -, rfl⟩
        simp [Val.isNull]
      have hnullpct : nullPctOf (y.map Val.vNum) = 0 := by
        rw [nullPctOf, if_pos (by rw [List.length_map]; omega), hfilternull]
        simp
      have hcond : ¬(({} : ValidatorConfig).max_null_rate * 100 ≤
          nullPctOf (y.map Val.vNum)) := by
        rw [hnullpct]
        show ¬((95 : ℚ) / 100 * 100 ≤ 0)
        norm_num
      have hinferred :
          (analyzeColumn {} (y.map Val.vNum) "target").inferred_type =
            "numeric" := by
        simp only [analyzeColumn]
        rw [if_neg hcond]
        show (inferColumnType (dropNull (y.map Val.vNum))).1 = "numeric"
        rw [dropNull_map_vnum]
        simp only [inferColumnType, filterMap_toNumericOpt_map,
          List.length_map, hall]
        rw [if_neg (by omega), if_pos (by rw [hq1]; norm_num)]
        simp
      have hucount :
          (analyzeColumn {} (y.map Val.vNum) "target").unique_count =
            y.dedup.length := by
        simp only [analyzeColumn]
        rw [if_neg hcond]
        show (if 0 < (dropNull (y.map Val.vNum)).length then
            (dropNull (y.map Val.vNum)).dedup.length else 0) = y.dedup.length
        rw [dropNull_map_vnum, dedup_map_vnum, List.length_map, List.length_map]
        rw [if_pos hlen]
      show DataValidator.infer_problem_type {} (y.map Val.vNum)
        (analyzeColumn {} (y.map Val.vNum) "target") = "classification"
      have hmin : ({} : ValidatorConfig).min_unique_for_regression = 10 := rfl
      simp only [DataValidator.infer_problem_type, dropNull_map_vnum,
        List.length_map, hinferred, hucount, filterMap_toNumericOpt_map,
        hall, hmin]
      rw [if_neg (by omega)]
      rw [if_neg (by decide)]
      rw [if_pos trivial]
      split_ifs with hA hB
      · rfl
      · rfl
      · exfalso
        rcases hdisj with hlt | hratio
        · exact hA ⟨hlt, trivial⟩
        · exact hB ((div_lt_five_percent _ _ hlen).mpr hratio)

/-- C1 witness for the amended claim: the vector 1, 1, 2 (two distinct
integral values among three samples) is classified `classification` by the
preprocessing service's implementation and by the validator's
implementation. -/
theorem c1_problem_type_threshold_witness :
    DataPreprocessing.detect_problem_type
      (([1, 1, 2] : List ℚ).map Val.vNum) = "classification" ∧
    validatorClassify {} (([1, 1, 2] : List ℚ).map Val.vNum) =
      "classification" :=
  ⟨(c1_problem_type_threshold [1, 1, 2] (by decide) (by decide)).1,
   (c1_problem_type_threshold [1, 1, 2] (by decide) (by decide)).2.2
     (Or.inl (by decide))⟩

theorem validator_numeric_health (y : List ℚ) (hlen : 0 < y.length)
    (name : String) :
    (analyzeColumn {} (y.map Val.vNum) name).inferred_type = "numeric" ∧
    (analyzeColumn {} (y.map Val.vNum) name).unique_count = y.dedup.length := by
  have hq1 : ((y.length : ℚ)) / ((y.length : ℚ)) = 1 :=
    div_self (by exact_mod_cast hlen.ne')
  have hfilternull : (y.map Val.vNum).filter Val.isNull = [] := by
    apply List.filter_eq_nil_iff.mpr
    intro a ha
    rcases List.mem_map.mp ha with ⟨q, -, rfl⟩
    simp [Val.isNull]
  have hnullpct : nullPctOf (y.map Val.vNum) = 0 := by
    rw [nullPctOf, if_pos (by rw [List.length_map]; omega), hfilternull]
    simp
  have hcond : ¬(({} : ValidatorConfig).max_null_rate * 100 ≤
      nullPctOf (y.map Val.vNum)) := by
    rw [hnullpct]
    show ¬((95 : ℚ) / 100 * 100 ≤ 0)
    norm_num
  constructor
  · simp only [analyzeColumn]
    rw [if_neg hcond]
    show (inferColumnType (dropNull (y.map Val.vNum))).1 = "numeric"
    rw [dropNull_map_vnum]
    simp only [inferColumnType, filterMap_toNumericOpt_map, List.length_map]
    rw [if_neg (by omega), if_pos (by rw [hq1]; norm_num)]
    split <;> rfl
  · simp only [analyzeColumn]
    rw [if_neg hcond]
    show (if 0 < (dropNull (y.map Val.vNum)).length then
        (dropNull (y.map Val.vNum)).dedup.length else 0) = y.dedup.length
    rw [dropNull_map_vnum, dedup_map_vnum, List.length_map, List.length_map]
    rw [if_pos hlen]

/-- C1 counterexample: the vector 0,1,...,9 has 10 distinct values, all
integral, so the claim as stated requires every implementation of the
Problem-Type Classifier to return `classification`.  The preprocessing
service's implementation does, but both the trainer's implementation
(which also requires the unique count to be below 5 percent of the sample
count) and the validator's implementation (whose unique-count threshold
defaults to 10) return `regression` on it. -/
theorem c1_counterexample :
    ([0, 1, 2, 3, 4, 5, 6, 7, 8, 9] : List ℚ).all
      (fun q => decide (q.den = 1)) = true ∧
    ([0, 1, 2, 3, 4, 5, 6, 7, 8, 9] : List ℚ).dedup.length = 10 ∧
    DataPreprocessing.detect_problem_type
      (([0, 1, 2, 3, 4, 5, 6, 7, 8, 9] : List ℚ).map Val.vNum) =
      "classification" ∧
    ModelTrainer.infer_problem_type
      (([0, 1, 2, 3, 4, 5, 6, 7, 8, 9] : List ℚ).map Val.vNum) =
      "regression" ∧
    validatorClassify {}
      (([0, 1, 2, 3, 4, 5, 6, 7, 8, 9] : List ℚ).map Val.vNum) =
      "regression" := by
  have hall : ([0, 1, 2, 3, 4, 5, 6, 7, 8, 9] : List ℚ).all
      (fun q => decide (q.den = 1)) = true := by decide
  have hd : ([0, 1, 2, 3, 4, 5, 6, 7, 8, 9] : List ℚ).dedup.length = 10 := by
    decide
  have hl : ([0, 1, 2, 3, 4, 5, 6, 7, 8, 9] : List ℚ).length = 10 := by decide
  refine ⟨hall, hd, ?_, ?_, ?_⟩
  · simp only [DataPreprocessing.detect_problem_type, dropNull_map_vnum,
      filterMap_toNumericOpt_map, List.length_map, hall, hd, hl]
    rw [if_neg (by omega), if_neg (by norm_num), if_pos ⟨trivial, by omega⟩]
  · simp only [ModelTrainer.infer_problem_type, dropNull_map_vnum,
      filterMap_toNumericOpt_map, dedup_map_vnum, List.length_map,
      no_vstr_map_vnum, hall, hd, hl]
    rw [if_neg (by simp)]
    rw [if_neg (by
      intro hcc
      have := (lt_five_percent_mul 10 10).mp hcc.2.1
      omega)]
  · have hh := validator_numeric_health [0, 1, 2, 3, 4, 5, 6, 7, 8, 9]
      (by decide) "target"
    have hmin : ({} : ValidatorConfig).min_unique_for_regression = 10 := rfl
    show DataValidator.infer_problem_type {}
      (([0, 1, 2, 3, 4, 5, 6, 7, 8, 9] : List ℚ).map Val.vNum)
      (analyzeColumn {}
        (([0, 1, 2, 3, 4, 5, 6, 7, 8, 9] : List ℚ).map Val.vNum) "target") =
      "regression"
    simp only [DataValidator.infer_problem_type, dropNull_map_vnum,
      List.length_map, hh.1, hh.2, filterMap_toNumericOpt_map, hall, hd, hl,
      hmin]
    rw [if_neg (by omega)]
    rw [if_neg (by decide)]
    rw [if_pos trivial]
    rw [if_neg (by intro hcc; omega)]
    rw [if_neg (by norm_num)]

theorem nodup_key_unique {cols : List (String × List Val)}
    (hnd : (cols.map Prod.fst).Nodup) {n : String} {vs vs' : List Val}
    (h1 : (n, vs) ∈ cols) (h2 : (n, vs') ∈ cols) : vs = vs' := by
  induction cols with
  | nil => simp at h1
  | cons c cs ih =>
      simp only [List.map_cons, List.nodup_cons] at hnd
      rcases List.mem_cons.mp h1 with he1 | h1'
      · rcases List.mem_cons.mp h2 with he2 | h2'
        · rw [← he1] at he2
          injection he2 with hfst hsnd
          exact hsnd.symm
        · exfalso
          apply hnd.1
          have hc1 : c.1 = n := by rw [← he1]
          rw [hc1]
          exact List.mem_map.mpr ⟨(n, vs'), h2', rfl⟩
      · rcases List.mem_cons.mp h2 with he2 | h2'
        · exfalso
          apply hnd.1
          have hc1 : c.1 = n := by rw [← he2]
          rw [hc1]
          exact List.mem_map.mpr ⟨(n, vs), h1', rfl⟩
        · exact ih hnd.2 h1' h2'

theorem mem_map_fst_filter {cols : List (String × List Val)}
    (hnd : (cols.map Prod.fst).Nodup) {n : String} {vs : List Val}
    (hm : (n, vs) ∈ cols) (p : String × List Val → Bool) :
    n ∈ (cols.filter p).map Prod.fst ↔ p (n, vs) = true := by
  constructor
  · intro h
    rcases List.mem_map.mp h with ⟨c, hc, hfst⟩
    have hcm := (List.mem_filter.mp hc).1
    have hcp := (List.mem_filter.mp hc).2
    obtain ⟨n', vs'⟩ := c
    cases hfst
    rw [nodup_key_unique hnd hm hcm]
    exact hcp
  · intro hp
    exact List.mem_map.mpr ⟨(n, vs), List.mem_filter.mpr ⟨hm, hp⟩, rfl⟩

theorem build_pipeline_fields {X : Table} {use_te : Bool} {vt : ℚ}
    {plan : PipelinePlan}
    (hplan : build_pipeline X use_te vt = Except.ok plan) :
    plan.low_cardinality_cats = lowCardCats X ∧
    plan.high_cardinality_cats = highCardCats X ∧
    ∃ mid, plan.removed_features =
      allNullFeatures X ++ mid ++ identifierCats X := by
  simp only [build_pipeline] at hplan
  split at hplan
  all_goals split at hplan
  all_goals first
    | exact Except.noConfusion hplan
    | (have h := Except.ok.inj hplan
       subst h
       exact ⟨rfl, rfl, _, rfl⟩)

/-- C8: for every categorical feature column of the training table seen by
`build_pipeline` (with distinct column names), the column is dropped into
the removed set when its distinct-count exceeds 1000 or equals the number
of non-null rows; otherwise it lands in the low-cardinality group exactly
when its distinct-count is at most 50 and its distinct-to-nonnull-rows
fraction is at most one half, and in the high-cardinality group exactly
otherwise. -/
theorem c8_cardinality_routing (X : Table) (use_te : Bool) (vt : ℚ)
    (plan : PipelinePlan) (n : String) (vs : List Val)
    (hplan : build_pipeline X use_te vt = Except.ok plan)
    (hnd : X.names.Nodup) (hm : (n, vs) ∈ X.cols)
    (hcat : isCategoricalFeature vs = true) :
    (isIdentifierCat vs = true → n ∈ plan.removed_features) ∧
    (isIdentifierCat vs = false →
      (n ∈ plan.low_cardinality_cats ↔
        catNUnique vs ≤ 50 ∧
        (catNUnique vs : ℚ) / (catNSamples vs : ℚ) ≤ 1 / 2) ∧
      (n ∈ plan.high_cardinality_cats ↔
        ¬(catNUnique vs ≤ 50 ∧
          (catNUnique vs : ℚ) / (catNSamples vs : ℚ) ≤ 1 / 2))) := by
  have hhigh_iff : isHighCardCat vs = true ↔
      ¬(catNUnique vs ≤ 50 ∧
        (catNUnique vs : ℚ) / (catNSamples vs : ℚ) ≤ 1 / 2) := by
    simp only [isHighCardCat, decide_eq_true_eq, not_and_or, not_le]
  obtain ⟨hlow, hhigh, mid, hrem⟩ := build_pipeline_fields hplan
  have hndc : (X.cols.map Prod.fst).Nodup := hnd
  constructor
  · intro hid
    rw [hrem]
    apply List.mem_append.mpr
    right
    show n ∈ (X.cols.filter _).map Prod.fst
    rw [mem_map_fst_filter hndc hm]
    simp [hcat, hid]
  · intro hid
    constructor
    · rw [hlow, lowCardCats, mem_map_fst_filter hndc hm]
      simp only [decide_eq_true_eq, hcat, hid, Bool.true_eq_false,
        not_false_eq_true, true_and, Bool.false_eq_true]
      rw [hhigh_iff]
      exact not_not
    · rw [hhigh, highCardCats, mem_map_fst_filter hndc hm]
      simp only [decide_eq_true_eq, hcat, hid, Bool.true_eq_false,
        not_false_eq_true, true_and, Bool.false_eq_true]
      exact hhigh_iff

/-- C8 witness: a single categorical column with values a, a, a, b
(2 distinct among 4 non-null rows) is not an identifier and is routed to
the low-cardinality group. -/
theorem c8_cardinality_routing_witness :
    "c" ∈ (PipelinePlan.mk [] ["c"] [] [] false).low_cardinality_cats := by
  have hplan : build_pipeline
      { cols := [("c", [Val.vStr "a", Val.vStr "a", Val.vStr "a", Val.vStr "b"])] }
      false 0 = Except.ok (PipelinePlan.mk [] ["c"] [] [] false) := by
    have hdd : ([Val.vStr "a", Val.vStr "b"] : List Val).dedup.length = 2 := by
      decide
    norm_num [build_pipeline, classifyNumericFeatures, lowCardCats,
      highCardCats, identifierCats, allNullFeatures, isNumericFeature,
      isCategoricalFeature, isAllNullCol, isIdentifierCat, isHighCardCat,
      numericConvRate, catNUnique, catNSamples, dropNull, Val.isNull,
      toNumericOpt, List.filter, List.filterMap, hdd]
  have hcat : isCategoricalFeature
      [Val.vStr "a", Val.vStr "a", Val.vStr "a", Val.vStr "b"] = true := by
    norm_num [isCategoricalFeature, isAllNullCol, numericConvRate, dropNull,
      Val.isNull, toNumericOpt, List.filter, List.filterMap]
  have h := (c8_cardinality_routing
    { cols := [("c", [Val.vStr "a", Val.vStr "a", Val.vStr "a", Val.vStr "b"])] }
    false 0 _ "c" [Val.vStr "a", Val.vStr "a", Val.vStr "a", Val.vStr "b"]
    hplan (by simp [Table.names]) (by simp) hcat).2 (by decide)
  refine h.1.mpr ⟨?_, ?_⟩
  · show catNUnique [Val.vStr "a", Val.vStr "a", Val.vStr "a", Val.vStr "b"] ≤ 50
    decide
  · show ((catNUnique [Val.vStr "a", Val.vStr "a", Val.vStr "a", Val.vStr "b"] : ℚ) /
      (catNSamples [Val.vStr "a", Val.vStr "a", Val.vStr "a", Val.vStr "b"] : ℚ) ≤ 1 / 2)
    have h1 : catNUnique [Val.vStr "a", Val.vStr "a", Val.vStr "a", Val.vStr "b"] = 2 := by
      decide
    have h2 : catNSamples [Val.vStr "a", Val.vStr "a", Val.vStr "a", Val.vStr "b"] = 4 := by
      decide
    rw [h1, h2]
    norm_num

/-- C4: with a requested target column, `validate_and_clean` raises exactly
when the input table is absent or empty, or the target column does not
exist, or no feature column remains after cleaning, or fewer than 10 rows
remain after cleaning; in every other case it returns the cleaned table and
a health report. -/
theorem c4_validation_error_iff (cfg : ValidatorConfig) (df : Table)
    (t : String) :
    isError (validate_and_clean cfg none (some t)) = true ∧
    (isError (validate_and_clean cfg (some df) (some t)) = true ↔
      (df.isEmpty = true ∨ t ∉ df.names ∨
       (cleanedTableFor cfg df t).names.filter (fun c => c ≠ t) = [] ∨
       (cleanedTableFor cfg df t).nRows < 10)) := by
  refine ⟨rfl, ?_⟩
  simp only [validate_and_clean, cleanedTableFor]
  by_cases h1 : df.isEmpty = true
  · simp [h1, isError]
  · rw [if_neg h1]
    by_cases h2 : t ∈ df.names
    · rw [if_pos h2]
      by_cases h3 : (cleanPhase cfg df t
          (validatorProblemTypeFor cfg df t)).table.names.filter
          (fun c => c ≠ t) = []
      · rw [if_pos h3]
        simp only [isError, true_iff]
        exact Or.inr (Or.inr (Or.inl h3))
      · rw [if_neg h3]
        by_cases h4 : (cleanPhase cfg df t
            (validatorProblemTypeFor cfg df t)).table.nRows < 10
        · rw [if_pos h4]
          simp [isError, h1, h4]
        · rw [if_neg h4]
          simp only [isError, Bool.false_eq_true, false_iff]
          intro hdisj
          rcases hdisj with h | h | h | h
          · exact h1 h
          · exact h h2
          · exact h3 h
          · exact h4 h
    · rw [if_neg h2]
      simp [isError, h1, h2]

/-- C4 witness: an absent dataframe raises a validation error. -/
theorem c4_validation_error_iff_witness :
    isError (validate_and_clean {} none (some "y")) = true :=
  (c4_validation_error_iff {} { cols := [] } "y").1
